import Mathlib

/-!
# AcpiS0ixPatcher: the discovery-and-patch pipeline of `src/main.c`

Shallow embedding of `SumBytes`, `VerifyAcpiRsdp2Checksums`, `VerifyAcpiSdtChecksum`,
`SetAcpiSdtChecksum` and `efi_main`.

Conventions of the embedding

* Memory is a map from addresses to cells; a byte read is the cell reduced modulo 256, a byte
  write stores the value reduced modulo 256.  Multi-byte fields are little-endian.
* A pointer is a natural number, `NULL` is `0`.  `UINTN` is 64 bits wide.  Address arithmetic
  inside one object (`&arr[i]`) is not wrapped: objects are assumed not to straddle the end of
  the address space.
* `Print` is modelled as appending one event to a log, so that the branch taken at every
  test of `efi_main` is observable.
-/

namespace AcpiPatcher

/-! ## Memory -/

/-- Byte-addressed memory. -/
abbrev Mem := Nat → Nat

/-- Read of one `UINT8`. -/
def rd8 (m : Mem) (a : Nat) : Nat := m a % 256

/-- Write of one `UINT8`. -/
def wr8 (m : Mem) (a v : Nat) : Mem := fun x => if x = a then v % 256 else m x

/-- Read of a little-endian `UINT32`. -/
def rd32 (m : Mem) (a : Nat) : Nat :=
  rd8 m a + 256 * rd8 m (a + 1) + 65536 * rd8 m (a + 2) + 16777216 * rd8 m (a + 3)

/-- Read of a little-endian `UINT64`. -/
def rd64 (m : Mem) (a : Nat) : Nat :=
  rd32 m a + 4294967296 * rd32 m (a + 4)

/-- Write of a little-endian `UINT32`. -/
def wr32 (m : Mem) (a v : Nat) : Mem :=
  wr8 (wr8 (wr8 (wr8 m a v) (a + 1) (v / 256)) (a + 2) (v / 65536)) (a + 3) (v / 16777216)

/-! ## Constants -/

/-- `SIGNATURE_16` of `Includes/Base.h`. -/
def SIGNATURE_16 (A B : Nat) : Nat := A ||| (B <<< 8)

/-- `SIGNATURE_32` of `Includes/Base.h`. -/
def SIGNATURE_32 (A B C D : Nat) : Nat := SIGNATURE_16 A B ||| (SIGNATURE_16 C D <<< 16)

/-- `SIGNATURE_64` of `Includes/Base.h`. -/
def SIGNATURE_64 (A B C D E F G H : Nat) : Nat :=
  SIGNATURE_32 A B C D ||| (SIGNATURE_32 E F G H <<< 32)

/-- Modelled from the spec: the root-pointer signature constant `"RSD PTR "` (the header
`IndustryStandard/Acpi51.h` that defines it is not among the sources). -/
def EFI_ACPI_2_0_ROOT_SYSTEM_DESCRIPTION_POINTER_SIGNATURE : Nat :=
  SIGNATURE_64 'R'.toNat 'S'.toNat 'D'.toNat ' '.toNat 'P'.toNat 'T'.toNat 'R'.toNat ' '.toNat

/-- Modelled from the spec: the minimum root-pointer revision, 2 (defined in the absent
`IndustryStandard/Acpi51.h`). -/
def EFI_ACPI_2_0_ROOT_SYSTEM_DESCRIPTION_POINTER_REVISION : Nat := 2

/-- Modelled from the spec: the signature constant of the extended table list, `"XSDT"`
(defined in the absent `IndustryStandard/Acpi51.h`). -/
def EFI_ACPI_2_0_EXTENDED_SYSTEM_DESCRIPTION_TABLE_SIGNATURE : Nat :=
  SIGNATURE_32 'X'.toNat 'S'.toNat 'D'.toNat 'T'.toNat

/-- Modelled from the spec: the 4-character power-management-table identifier, `"FACP"`
(defined in the absent `IndustryStandard/Acpi51.h`). -/
def EFI_ACPI_2_0_FIXED_ACPI_DESCRIPTION_TABLE_SIGNATURE : Nat :=
  SIGNATURE_32 'F'.toNat 'A'.toNat 'C'.toNat 'P'.toNat

/-- Modelled from the spec: the configured minimum revision of the power-management table, 5
(defined in the absent `IndustryStandard/Acpi51.h`). -/
def EFI_ACPI_5_0_FIXED_ACPI_DESCRIPTION_TABLE_REVISION : Nat := 5

/-- Modelled from the spec: `sizeof (EFI_ACPI_DESCRIPTION_HEADER)`, the 36-byte generic table
header (the type is declared in the absent `IndustryStandard/Acpi51.h`). -/
def sizeof_EFI_ACPI_DESCRIPTION_HEADER : Nat := 36

/-- Offset of `Signature` in a table header. -/
def HDR_Signature : Nat := 0
/-- Offset of `Length` in a table header. -/
def HDR_Length : Nat := 4
/-- Offset of `Revision` in a table header. -/
def HDR_Revision : Nat := 8
/-- Offset of `Checksum` in a table header. -/
def HDR_Checksum : Nat := 9

/-- Offset of `Revision` in the root pointer. -/
def RSDP_Revision : Nat := 15
/-- Offset of `Length` in the root pointer. -/
def RSDP_Length : Nat := 20
/-- Offset of `XsdtAddress` in the root pointer. -/
def RSDP_XsdtAddress : Nat := 24

/-- Modelled from the spec: the fixed byte offset of the 4-byte `Flags` field in
`EFI_ACPI_5_0_FIXED_ACPI_DESCRIPTION_TABLE` (declared in the absent
`IndustryStandard/Acpi51.h`), 112. -/
def FADT_Flags : Nat := 112

/-- An `EFI_GUID`. -/
structure EFI_GUID where
  Data1 : Nat
  Data2 : Nat
  Data3 : Nat
  Data4 : List Nat
  deriving DecidableEq

/-- Modelled from the spec: the first accepted ACPI root-pointer identifier (the library global
`AcpiTableGuid` is not among the sources). -/
def AcpiTableGuid : EFI_GUID :=
  ⟨0xeb9d2d30, 0x2d88, 0x11d3, [0x9a, 0x16, 0x00, 0x90, 0x27, 0x3f, 0xc1, 0x4d]⟩

/-- Modelled from the spec: the second accepted ACPI root-pointer identifier
(`ACPI_20_TABLE_GUID` is defined in a header that is not among the sources). -/
def Acpi20TableGuid : EFI_GUID :=
  ⟨0x8868e871, 0xe4f1, 0x11d3, [0xbc, 0x22, 0x00, 0x80, 0xc7, 0x3c, 0x88, 0x81]⟩

/-- Modelled from the spec: `CompareGuid`, the library comparison of two identifiers (not among
the sources); it answers whether the identifiers are equal. -/
def CompareGuid (a b : EFI_GUID) : Bool := decide (a = b)

/-- One entry of `gST->ConfigurationTable`. -/
structure EFI_CONFIGURATION_TABLE where
  VendorGuid : EFI_GUID
  VendorTable : Nat

/-! ## The checksum routines -/

/-- `SumBytes`: the `UINT8` accumulator wraps at every step. -/
def SumBytes (m : Mem) (arr size : Nat) : Nat :=
  (List.range size).foldl (fun sum i => (sum + rd8 m (arr + i)) % 256) 0

/-- `VerifyAcpiRsdp2Checksums`. -/
def VerifyAcpiRsdp2Checksums (m : Mem) (arr : Nat) : Bool :=
  let size := rd32 m (arr + 20)
  SumBytes m arr 20 == 0 && SumBytes m arr size == 0

/-- `VerifyAcpiSdtChecksum`. -/
def VerifyAcpiSdtChecksum (m : Mem) (arr : Nat) : Bool :=
  let size := rd32 m (arr + 4)
  SumBytes m arr size == 0

/-- `SetAcpiSdtChecksum`; the unary minus on a `UINT8` is `(256 - s) % 256`. -/
def SetAcpiSdtChecksum (m : Mem) (arr : Nat) : Mem :=
  let size := rd32 m (arr + 4)
  let m1 := wr8 m (arr + 9) 0
  wr8 m1 (arr + 9) ((256 - SumBytes m1 arr size) % 256)

/-! ## `efi_main` -/

/-- The diagnostics `efi_main` prints, one constructor per `Print` call. -/
inductive Msg where
  | Banner
  | NotAcpiTable (i : Nat)
  | InvalidRsdp (i : Nat)
  | RsdpRev (i rev : Nat)
  | InvalidXsdt (i : Nat)
  | XsdtCount (n : Nat)
  | NotFadt (j : Nat)
  | FadtRevisionBelow5 (j : Nat)
  | FadtLocated
  | FadtFlags (flags : Nat)
  | AlreadyEnabled
  | SettingFlag
  | SettingChecksum
  | PatchCompleted
  | PressAnyKey
  deriving DecidableEq

/-- The locals `Rsdp` and `XsdtHeader` together with the text printed so far. -/
structure LocState where
  Rsdp : Nat
  XsdtHeader : Nat
  log : List Msg

/-- The first loop of `efi_main` (lines 78-110), from index `i` over the remaining
configuration-table entries. -/
def locateLoop (m : Mem) : List EFI_CONFIGURATION_TABLE → Nat → LocState → LocState
  | [], _, s => s
  | e :: es, i, s =>
    if (!CompareGuid e.VendorGuid AcpiTableGuid && !CompareGuid e.VendorGuid Acpi20TableGuid) then
      locateLoop m es (i + 1) ⟨s.Rsdp, s.XsdtHeader, s.log ++ [Msg.NotAcpiTable i]⟩
    else
      let Rsdp := e.VendorTable
      if (rd64 m Rsdp != EFI_ACPI_2_0_ROOT_SYSTEM_DESCRIPTION_POINTER_SIGNATURE
          || decide (rd8 m (Rsdp + RSDP_Revision)
                < EFI_ACPI_2_0_ROOT_SYSTEM_DESCRIPTION_POINTER_REVISION)
          || !VerifyAcpiRsdp2Checksums m Rsdp) then
        locateLoop m es (i + 1) ⟨0, s.XsdtHeader, s.log ++ [Msg.InvalidRsdp i]⟩
      else
        let XsdtHeader := rd64 m (Rsdp + RSDP_XsdtAddress) % 2 ^ 64
        let log := s.log ++ [Msg.RsdpRev i (rd8 m (Rsdp + RSDP_Revision))]
        if (rd32 m (XsdtHeader + HDR_Signature)
              != EFI_ACPI_2_0_EXTENDED_SYSTEM_DESCRIPTION_TABLE_SIGNATURE
            || !VerifyAcpiSdtChecksum m XsdtHeader) then
          locateLoop m es (i + 1) ⟨Rsdp, 0, log ++ [Msg.InvalidXsdt i]⟩
        else
          ⟨Rsdp, XsdtHeader, log⟩

/-- Subtraction of two `UINTN` values `a, b < 2 ^ 64`: the difference modulo `2 ^ 64`, that is
`(a + 2 ^ 64 - b) % 2 ^ 64`, written by cases on whether it wraps. -/
def subUINTN (a b : Nat) : Nat := if b ≤ a then a - b else a + 2 ^ 64 - b

/-- `EntryArraySize` (line 115): `Length` is promoted to `UINTN`, the subtraction of
`sizeof(*XsdtHeader)` and the division by `sizeof(UINT64)` are done in `UINTN`, and the quotient
is stored in a `UINT32`. -/
def EntryArraySize (m : Mem) (XsdtHeader : Nat) : Nat :=
  (subUINTN (rd32 m (XsdtHeader + HDR_Length)) sizeof_EFI_ACPI_DESCRIPTION_HEADER / 8) % 2 ^ 32

/-- The local `Fadt` together with the text printed by the second loop. -/
structure ScanState where
  Fadt : Nat
  log : List Msg

/-- The second loop of `efi_main` (lines 118-138): `n` iterations remain, the next index is
`j`. -/
def scanLoop (m : Mem) (EntryAddress : Nat) : Nat → Nat → List Msg → ScanState
  | 0, _, log => ⟨0, log⟩
  | n + 1, j, log =>
    let Entry := rd64 m (EntryAddress + 8 * j) % 2 ^ 64
    if rd32 m (Entry + HDR_Signature) != EFI_ACPI_2_0_FIXED_ACPI_DESCRIPTION_TABLE_SIGNATURE then
      scanLoop m EntryAddress n (j + 1) (log ++ [Msg.NotFadt j])
    else if rd8 m (Entry + HDR_Revision) < EFI_ACPI_5_0_FIXED_ACPI_DESCRIPTION_TABLE_REVISION then
      scanLoop m EntryAddress n (j + 1) (log ++ [Msg.FadtRevisionBelow5 j])
    else
      ⟨Entry, log ++ [Msg.FadtLocated]⟩

/-- The body of `if (Rsdp != NULL && XsdtHeader != NULL)` (lines 114-138). -/
def scanEntries (m : Mem) (XsdtHeader : Nat) : ScanState :=
  let EntryAddress := XsdtHeader + sizeof_EFI_ACPI_DESCRIPTION_HEADER
  let n := EntryArraySize m XsdtHeader
  scanLoop m EntryAddress n 0 [Msg.XsdtCount n]

/-- The body of `if (Fadt != NULL)` (lines 143-161): the patch step. -/
def patchFadt (m : Mem) (Fadt : Nat) : Mem × List Msg :=
  let Flags := rd32 m (Fadt + FADT_Flags)
  if (Flags >>> 21) &&& 1 ≠ 0 then
    (m, [Msg.FadtFlags Flags, Msg.AlreadyEnabled])
  else
    let m1 := wr32 m (Fadt + FADT_Flags) ((Flags ||| (1 <<< 21)) % 2 ^ 32)
    let m2 := SetAcpiSdtChecksum m1 Fadt
    (m2, [Msg.FadtFlags Flags, Msg.SettingFlag, Msg.SettingChecksum, Msg.PatchCompleted])

/-- What a run of `efi_main` leaves behind: memory, the printed text, and the final values of
the three locals. -/
structure Run where
  mem : Mem
  log : List Msg
  Rsdp : Nat
  XsdtHeader : Nat
  Fadt : Nat

/-- The guarded second stage, `if (Rsdp != NULL && XsdtHeader != NULL) { ... }` (lines 112-139):
the value of `Fadt` and the text printed so far. -/
def scanStage (m : Mem) (loc : LocState) : ScanState :=
  if loc.Rsdp ≠ 0 ∧ loc.XsdtHeader ≠ 0 then
    ⟨(scanEntries m loc.XsdtHeader).Fadt, loc.log ++ (scanEntries m loc.XsdtHeader).log⟩
  else ⟨0, loc.log⟩

/-- The guarded third stage, `if (Fadt != NULL) { ... }` (lines 141-162): memory and the text
printed so far. -/
def patchStage (m : Mem) (sc : ScanState) : Mem × List Msg :=
  if sc.Fadt ≠ 0 then ((patchFadt m sc.Fadt).1, sc.log ++ (patchFadt m sc.Fadt).2)
  else (m, sc.log)

/-- The locals `Rsdp` and `XsdtHeader` after the first loop of `efi_main`, which starts with
both `NULL` and the banner printed. -/
def locateTables (cfg : List EFI_CONFIGURATION_TABLE) (m : Mem) : LocState :=
  locateLoop m cfg 0 ⟨0, 0, [Msg.Banner]⟩

/-- `efi_main` over the configuration-table list `cfg` and the memory `m`. -/
def efi_main (cfg : List EFI_CONFIGURATION_TABLE) (m : Mem) : Run :=
  ⟨(patchStage m (scanStage m (locateTables cfg m))).1,
    (patchStage m (scanStage m (locateTables cfg m))).2 ++ [Msg.PressAnyKey],
    (locateTables cfg m).Rsdp,
    (locateTables cfg m).XsdtHeader,
    (scanStage m (locateTables cfg m)).Fadt⟩

/-- The addresses the patch step may write for the table at `Fadt`: the four bytes of its
flags field and its checksum byte. -/
def fadtWritten (Fadt a : Nat) : Prop :=
  (Fadt + FADT_Flags ≤ a ∧ a < Fadt + FADT_Flags + 4) ∨ a = Fadt + HDR_Checksum

instance (Fadt a : Nat) : Decidable (fadtWritten Fadt a) := by
  unfold fadtWritten
  infer_instance

/-- The test of line 145, `(Fadt->Flags >> 21) & 1U`, on the table at `Fadt`. -/
def s0LowPowerIdle (m : Mem) (Fadt : Nat) : Prop :=
  (rd32 m (Fadt + FADT_Flags) >>> 21) &&& 1 ≠ 0

instance (m : Mem) (Fadt : Nat) : Decidable (s0LowPowerIdle m Fadt) := by
  unfold s0LowPowerIdle
  infer_instance

/-- The pointer `EntryAddress[j]` of the extended table list at `XsdtHeader`. -/
def xsdtEntry (m : Mem) (XsdtHeader j : Nat) : Nat :=
  rd64 m (XsdtHeader + sizeof_EFI_ACPI_DESCRIPTION_HEADER + 8 * j) % 2 ^ 64

/-- The two predicates of the entry scan on the header at `Entry`: the power-management-table
signature and a revision of at least 5. -/
def isFadt5 (m : Mem) (Entry : Nat) : Prop :=
  rd32 m (Entry + HDR_Signature) = EFI_ACPI_2_0_FIXED_ACPI_DESCRIPTION_TABLE_SIGNATURE ∧
    EFI_ACPI_5_0_FIXED_ACPI_DESCRIPTION_TABLE_REVISION ≤ rd8 m (Entry + HDR_Revision)

instance (m : Mem) (Entry : Nat) : Decidable (isFadt5 m Entry) := by
  unfold isFadt5
  infer_instance

/-- The identifier of a configuration-table entry is one of the two ACPI identifiers. -/
def isAcpiGuid (e : EFI_CONFIGURATION_TABLE) : Prop :=
  e.VendorGuid = AcpiTableGuid ∨ e.VendorGuid = Acpi20TableGuid

instance (e : EFI_CONFIGURATION_TABLE) : Decidable (isAcpiGuid e) := by
  unfold isAcpiGuid
  infer_instance

/-- The three checks of lines 88-90 on the root pointer at `Rsdp`: signature, revision and both
checksum regions. -/
def rsdpValid (m : Mem) (Rsdp : Nat) : Prop :=
  rd64 m Rsdp = EFI_ACPI_2_0_ROOT_SYSTEM_DESCRIPTION_POINTER_SIGNATURE ∧
    EFI_ACPI_2_0_ROOT_SYSTEM_DESCRIPTION_POINTER_REVISION ≤ rd8 m (Rsdp + RSDP_Revision) ∧
    SumBytes m Rsdp 20 = 0 ∧ SumBytes m Rsdp (rd32 m (Rsdp + RSDP_Length)) = 0

instance (m : Mem) (Rsdp : Nat) : Decidable (rsdpValid m Rsdp) := by
  unfold rsdpValid
  infer_instance

/-- The pointer `(UINTN) Rsdp->XsdtAddress`. -/
def xsdtOf (m : Mem) (Rsdp : Nat) : Nat := rd64 m (Rsdp + RSDP_XsdtAddress) % 2 ^ 64

/-- The two checks of lines 100-101 on the table at `XsdtHeader`: signature and checksum over
the declared length. -/
def xsdtValid (m : Mem) (XsdtHeader : Nat) : Prop :=
  rd32 m (XsdtHeader + HDR_Signature) = EFI_ACPI_2_0_EXTENDED_SYSTEM_DESCRIPTION_TABLE_SIGNATURE ∧
    SumBytes m XsdtHeader (rd32 m (XsdtHeader + HDR_Length)) = 0

instance (m : Mem) (XsdtHeader : Nat) : Decidable (xsdtValid m XsdtHeader) := by
  unfold xsdtValid
  infer_instance

/-- A configuration-table entry that makes the first loop `break`: an ACPI identifier, a valid
root pointer and a valid extended table list behind it. -/
def goodEntry (m : Mem) (e : EFI_CONFIGURATION_TABLE) : Prop :=
  isAcpiGuid e ∧ rsdpValid m e.VendorTable ∧ xsdtValid m (xsdtOf m e.VendorTable)

instance (m : Mem) (e : EFI_CONFIGURATION_TABLE) : Decidable (goodEntry m e) := by
  unfold goodEntry
  infer_instance

/-- The eight bytes at `p` spell `"RSD PTR "`. -/
def rsdpSignatureBytes (m : Mem) (p : Nat) : Prop :=
  rd8 m p = 'R'.toNat ∧ rd8 m (p + 1) = 'S'.toNat ∧ rd8 m (p + 2) = 'D'.toNat ∧
    rd8 m (p + 3) = ' '.toNat ∧ rd8 m (p + 4) = 'P'.toNat ∧ rd8 m (p + 5) = 'T'.toNat ∧
    rd8 m (p + 6) = 'R'.toNat ∧ rd8 m (p + 7) = ' '.toNat

instance (m : Mem) (p : Nat) : Decidable (rsdpSignatureBytes m p) := by
  unfold rsdpSignatureBytes
  infer_instance

/-! ## Concrete memory images -/

/-- Memory `m` with the bytes `bytes` placed at `base`. -/
def load (base : Nat) (bytes : List Nat) (m : Mem) : Mem :=
  fun a => if base ≤ a ∧ a < base + bytes.length then bytes.getD (a - base) 0 else m a

/-- A root pointer of revision 2 and length 36 whose extended-table address is 128. -/
def rsdpBytes : List Nat :=
  [82, 83, 68, 32, 80, 84, 82, 32, 223, 0, 0, 0, 0, 0, 0, 2, 0, 0, 0, 0, 36, 0, 0, 0,
    128, 0, 0, 0, 0, 0, 0, 0, 92, 0, 0, 0]

/-- A root pointer of revision 2 and length 36 whose extended-table address is 640. -/
def rsdpDangling : List Nat :=
  [82, 83, 68, 32, 80, 84, 82, 32, 223, 0, 0, 0, 0, 0, 0, 2, 0, 0, 0, 0, 36, 0, 0, 0,
    128, 2, 0, 0, 0, 0, 0, 0, 90, 0, 0, 0]

/-- An extended table list of length 60 with the three pointers 192, 256 and 384. -/
def xsdt3 : List Nat :=
  [88, 83, 68, 84, 60, 0, 0, 0, 1, 62] ++ List.replicate 26 0 ++
    [192, 0, 0, 0, 0, 0, 0, 0, 0, 1, 0, 0, 0, 0, 0, 0, 128, 1, 0, 0, 0, 0, 0, 0]

/-- An extended table list of length 52 with the two pointers 192 and 256. -/
def xsdt2 : List Nat :=
  [88, 83, 68, 84, 52, 0, 0, 0, 1, 199] ++ List.replicate 26 0 ++
    [192, 0, 0, 0, 0, 0, 0, 0, 0, 1, 0, 0, 0, 0, 0, 0]

/-- A 36-byte table with the signature `"APIC"`. -/
def apic : List Nat := [65, 80, 73, 67, 36, 0, 0, 0, 1, 190] ++ List.replicate 26 0

/-- A 116-byte `"FACP"` table of revision 4, flags `0x421`. -/
def fadt4 : List Nat :=
  [70, 65, 67, 80, 116, 0, 0, 0, 4, 73] ++ List.replicate 102 0 ++ [33, 4, 0, 0]

/-- A 116-byte `"FACP"` table of revision 5, flags `0x421` (bit 21 clear), correct checksum. -/
def fadt5 : List Nat :=
  [70, 65, 67, 80, 116, 0, 0, 0, 5, 72] ++ List.replicate 102 0 ++ [33, 4, 0, 0]

/-- A 116-byte `"FACP"` table of revision 5, flags `0x200421` (bit 21 set), correct checksum. -/
def fadt5set : List Nat :=
  [70, 65, 67, 80, 116, 0, 0, 0, 5, 40] ++ List.replicate 102 0 ++ [33, 4, 32, 0]

/-- A 116-byte `"FACP"` table of revision 5, flags `0x421`, whose checksum byte is off by
one. -/
def fadt5bad : List Nat :=
  [70, 65, 67, 80, 116, 0, 0, 0, 5, 73] ++ List.replicate 102 0 ++ [33, 4, 0, 0]

/-- Root pointer at 64, extended table list at 128, and behind its three pointers an `"APIC"`
table at 192, a revision-4 `"FACP"` at 256 and a revision-5 `"FACP"` at 384. -/
def imgPatch : Mem :=
  load 64 rsdpBytes (load 128 xsdt3 (load 192 apic (load 256 fadt4 (load 384 fadt5 (fun _ => 0)))))

/-- The image `imgPatch` with bit 21 already set in the table at 384. -/
def imgEnabled : Mem :=
  load 64 rsdpBytes
    (load 128 xsdt3 (load 192 apic (load 256 fadt4 (load 384 fadt5set (fun _ => 0)))))

/-- The image `imgPatch` with a wrong checksum byte in the table at 384. -/
def imgCorrupt : Mem :=
  load 64 rsdpBytes
    (load 128 xsdt3 (load 192 apic (load 256 fadt4 (load 384 fadt5bad (fun _ => 0)))))

/-- The image `imgPatch` with a second root pointer at 512 whose extended-table address, 640,
holds no table. -/
def imgTwoRoots : Mem := load 512 rsdpDangling imgPatch

/-- Root pointer at 64 and an extended table list at 128 that points to the `"APIC"` table at
192 and the revision-4 `"FACP"` at 256 only. -/
def imgNoFadt : Mem :=
  load 64 rsdpBytes (load 128 xsdt2 (load 192 apic (load 256 fadt4 (fun _ => 0))))

/-- A configuration table with one foreign entry followed by the ACPI 2.0 entry for the root
pointer at 64. -/
def cfgAcpi : List EFI_CONFIGURATION_TABLE :=
  [⟨⟨1, 2, 3, [4, 5, 6, 7, 8, 9, 10, 11]⟩, 4096⟩, ⟨Acpi20TableGuid, 64⟩]

/-- A configuration table with no ACPI entry. -/
def cfgForeign : List EFI_CONFIGURATION_TABLE :=
  [⟨⟨1, 2, 3, [4, 5, 6, 7, 8, 9, 10, 11]⟩, 64⟩]

/-- A configuration table whose first ACPI entry is the root pointer at 512 and whose second is
the root pointer at 64. -/
def cfgTwoRoots : List EFI_CONFIGURATION_TABLE :=
  [⟨Acpi20TableGuid, 512⟩, ⟨AcpiTableGuid, 64⟩]

set_option maxRecDepth 100000

/-! ## Buffers and the reference checksum -/

/-- A byte buffer seen as memory: byte `i` of the buffer sits at address `i`, and every address
past its end holds `0`. -/
def bufMem (bytes : List Nat) : Mem := fun a => bytes.getD a 0

/-- The checksum in the words of the specification: the bytes at offsets `[0, n)` are added up
in the natural numbers, with no bound on the running total, and the total is truncated to
8 bits once at the end. -/
def ComputeSum_reference (m : Mem) (arr n : Nat) : Nat :=
  ((List.range n).map (fun i => rd8 m (arr + i))).sum % 256

/-- Eight bytes that pass the two checks on an extended table list: the signature `"XSDT"` and
a declared length of 0, over which the byte sum is empty. -/
def xsdtShort : List Nat := [88, 83, 68, 84, 0, 0, 0, 0]

/-- Root pointer at 64, the eight bytes `xsdtShort` at 128, the pointer 384 stored at 164 (36
bytes past 128, outside the declared length 0), and a revision-5 `"FACP"` at 384. -/
def imgShortXsdt : Mem :=
  load 64 rsdpBytes
    (load 128 xsdtShort (load 164 [128, 1, 0, 0, 0, 0, 0, 0] (load 384 fadt5 (fun _ => 0))))

/-- The guard of line 112, `Rsdp != NULL && XsdtHeader != NULL`, on the locals the first loop
leaves: the entry scan runs. -/
def scanRuns (cfg : List EFI_CONFIGURATION_TABLE) (m : Mem) : Prop :=
  (locateTables cfg m).Rsdp ≠ 0 ∧ (locateTables cfg m).XsdtHeader ≠ 0

instance (cfg : List EFI_CONFIGURATION_TABLE) (m : Mem) : Decidable (scanRuns cfg m) := by
  unfold scanRuns
  infer_instance

/-! ## What the two loops read, and the image of a nested candidate -/

/-- The five addresses of `fadtWritten` as a list: the checksum byte and the four bytes of the
flags field of the table at `Fadt`. -/
def fadtWrittenList (Fadt : Nat) : List Nat :=
  [Fadt + HDR_Checksum, Fadt + FADT_Flags, Fadt + FADT_Flags + 1, Fadt + FADT_Flags + 2,
    Fadt + FADT_Flags + 3]

/-- The bytes lines 88-98 read of the root pointer at `p`, in the order of evaluation: the
signature; when it matches, the revision; when that is at least 2, the length field and the
first 20 bytes; when those sum to 0, the bytes of the declared length; and when these sum to 0
too, `XsdtAddress`. -/
def rsdpRead (m : Mem) (p a : Nat) : Prop :=
  (p ≤ a ∧ a < p + 8) ∨
    (rd64 m p = EFI_ACPI_2_0_ROOT_SYSTEM_DESCRIPTION_POINTER_SIGNATURE ∧
      (a = p + RSDP_Revision ∨
        (EFI_ACPI_2_0_ROOT_SYSTEM_DESCRIPTION_POINTER_REVISION ≤ rd8 m (p + RSDP_Revision) ∧
          ((p ≤ a ∧ a < p + 24) ∨
            (SumBytes m p 20 = 0 ∧
              ((p ≤ a ∧ a < p + rd32 m (p + RSDP_Length)) ∨
                (SumBytes m p (rd32 m (p + RSDP_Length)) = 0 ∧
                  p + RSDP_XsdtAddress ≤ a ∧ a < p + RSDP_XsdtAddress + 8)))))))

instance (m : Mem) (p a : Nat) : Decidable (rsdpRead m p a) := by
  unfold rsdpRead
  infer_instance

/-- The bytes lines 100-101 read of the extended table list at `x`, in the order of
evaluation: the signature; when it matches, the length field and the bytes of the declared
length. -/
def xsdtRead (m : Mem) (x a : Nat) : Prop :=
  (x ≤ a ∧ a < x + 4) ∨
    (rd32 m (x + HDR_Signature) = EFI_ACPI_2_0_EXTENDED_SYSTEM_DESCRIPTION_TABLE_SIGNATURE ∧
      ((x + HDR_Length ≤ a ∧ a < x + HDR_Length + 4) ∨
        (x ≤ a ∧ a < x + rd32 m (x + HDR_Length))))

instance (m : Mem) (x a : Nat) : Decidable (xsdtRead m x a) := by
  unfold xsdtRead
  infer_instance

/-- The bytes lines 121 and 127 read of the header at `t`, in the order of evaluation: the
signature; when it matches, the revision. -/
def entryRead (m : Mem) (t a : Nat) : Prop :=
  (t ≤ a ∧ a < t + 4) ∨
    (rd32 m (t + HDR_Signature) = EFI_ACPI_2_0_FIXED_ACPI_DESCRIPTION_TABLE_SIGNATURE ∧
      a = t + HDR_Revision)

instance (m : Mem) (t a : Nat) : Decidable (entryRead m t a) := by
  unfold entryRead
  infer_instance

/-- The configuration-table entries the first loop examines: every entry up to and including
the first one that makes the loop `break`. -/
def examined (m : Mem) : List EFI_CONFIGURATION_TABLE → List EFI_CONFIGURATION_TABLE
  | [] => []
  | e :: es => if goodEntry m e then [e] else e :: examined m es

/-- The indices the second loop visits when `n` iterations remain and the next index is `j`:
every index up to and including the first whose entry passes both tests. -/
def visited (m : Mem) (X : Nat) : Nat → Nat → List Nat
  | 0, _ => []
  | n + 1, j => if isFadt5 m (xsdtEntry m X j) then [j] else j :: visited m X n (j + 1)

/-- The address `a` is read by the first loop: it belongs to the root pointer behind an
examined entry with an ACPI identifier, or to the extended table list behind such a root
pointer that is valid. -/
def locateReads (m : Mem) (cfg : List EFI_CONFIGURATION_TABLE) (a : Nat) : Prop :=
  ∃ e, e ∈ examined m cfg ∧ (isAcpiGuid e ∧
    (rsdpRead m e.VendorTable a ∨
      (rsdpValid m e.VendorTable ∧ xsdtRead m (xsdtOf m e.VendorTable) a)))

instance (m : Mem) (cfg : List EFI_CONFIGURATION_TABLE) (a : Nat) :
    Decidable (locateReads m cfg a) := by
  unfold locateReads
  infer_instance

/-- The address `a` is read by the entry scan of the list at `X` (lines 114-138): it belongs to
the length field, to a visited slot of the pointer array, or to what the loop reads of the
header a visited slot points to. -/
def scanReads (m : Mem) (X a : Nat) : Prop :=
  (X + HDR_Length ≤ a ∧ a < X + HDR_Length + 4) ∨
    ∃ j, j ∈ visited m X (EntryArraySize m X) 0 ∧
      ((X + sizeof_EFI_ACPI_DESCRIPTION_HEADER + 8 * j ≤ a ∧
          a < X + sizeof_EFI_ACPI_DESCRIPTION_HEADER + 8 * j + 8) ∨
        entryRead m (xsdtEntry m X j) a)

instance (m : Mem) (X a : Nat) : Decidable (scanReads m X a) := by
  unfold scanReads
  infer_instance

/-- No byte whose value a first run of `efi_main` changes is read by the first loop of that
run, nor, when the entry scan runs, by the entry scan. -/
def readsClearOfPatch (cfg : List EFI_CONFIGURATION_TABLE) (m : Mem) : Prop :=
  ∀ a, a ∈ fadtWrittenList (efi_main cfg m).Fadt → rd8 (efi_main cfg m).mem a ≠ rd8 m a →
    ¬ locateReads m cfg a ∧ (scanRuns cfg m → ¬ scanReads m (efi_main cfg m).XsdtHeader a)

instance (cfg : List EFI_CONFIGURATION_TABLE) (m : Mem) : Decidable (readsClearOfPatch cfg m) := by
  unfold readsClearOfPatch
  infer_instance

/-- The byte range `[t, t + Length)` of the structure at `t` whose length field is at offset
`lengthOffset`, as the pair of its two ends. -/
def declaredRange (m : Mem) (t lengthOffset : Nat) : Nat × Nat :=
  (t, t + rd32 m (t + lengthOffset))

/-- Two byte ranges, given by their ends, have no byte in common. -/
def rangesDisjoint (r s : Nat × Nat) : Prop := r.2 ≤ s.1 ∨ s.2 ≤ r.1

instance (r s : Nat × Nat) : Decidable (rangesDisjoint r s) := by
  unfold rangesDisjoint
  infer_instance

/-- The premise of the idempotence property in the words of the specification: the root
pointer and the extended table list that a run locates, and the tables the list points to,
occupy pairwise disjoint byte ranges, each range being the declared length of its structure. -/
def tablesPairwiseDisjoint (cfg : List EFI_CONFIGURATION_TABLE) (m : Mem) : Prop :=
  List.Pairwise rangesDisjoint
    (declaredRange m (efi_main cfg m).Rsdp RSDP_Length ::
      declaredRange m (efi_main cfg m).XsdtHeader HDR_Length ::
      (List.range (EntryArraySize m (efi_main cfg m).XsdtHeader)).map
        (fun j => declaredRange m (xsdtEntry m (efi_main cfg m).XsdtHeader j) HDR_Length))

instance (cfg : List EFI_CONFIGURATION_TABLE) (m : Mem) :
    Decidable (tablesPairwiseDisjoint cfg m) := by
  unfold tablesPairwiseDisjoint
  infer_instance

/-- A 116-byte `"FACP"` table of revision 5 with a correct checksum whose bytes 80..115 read as
a root pointer of revision 2 and length 36 with the extended-table address 640: its first 20
bytes sum to 0, its 36 bytes sum to 224, and its last four bytes are the flags field of the
table, `0x3a`, with bit 21 clear. -/
def fadtHost : List Nat :=
  [70, 65, 67, 80, 116, 0, 0, 0, 5, 141] ++ List.replicate 70 0 ++
    [82, 83, 68, 32, 80, 84, 82, 32, 223, 0, 0, 0, 0, 0, 0, 2, 0, 0, 0, 0, 36, 0, 0, 0,
      128, 2, 0, 0, 0, 0, 0, 0, 58, 0, 0, 0]

/-- An extended table list of length 44 with the one pointer 768. -/
def xsdtB : List Nat :=
  [88, 83, 68, 84, 44, 0, 0, 0, 1, 141] ++ List.replicate 26 0 ++ [0, 3, 0, 0, 0, 0, 0, 0]

/-- The image `imgPatch` with the table `fadtHost` at 384 in place of `fadt5`, and apart from
it a second extended table list at 640 that points to a revision-5 `"FACP"` at 768. -/
def imgNested : Mem :=
  load 64 rsdpBytes (load 128 xsdt3 (load 192 apic (load 256 fadt4 (load 384 fadtHost
    (load 640 xsdtB (load 768 fadt5 (fun _ => 0)))))))

/-- A configuration table whose first ACPI entry points to byte 80 of the table at 384 and
whose second is the root pointer at 64. -/
def cfgNested : List EFI_CONFIGURATION_TABLE :=
  [⟨Acpi20TableGuid, 464⟩, ⟨Acpi20TableGuid, 64⟩]

/-- The configuration table `cfgNested` with its two entries swapped: the root pointer at 64
comes first. -/
def cfgSwapped : List EFI_CONFIGURATION_TABLE :=
  [⟨Acpi20TableGuid, 64⟩, ⟨Acpi20TableGuid, 464⟩]

/-- An extended table list of length 60 with the three pointers 192, 256 and 300. -/
def xsdt3o : List Nat :=
  [88, 83, 68, 84, 60, 0, 0, 0, 1, 146] ++ List.replicate 26 0 ++
    [192, 0, 0, 0, 0, 0, 0, 0, 0, 1, 0, 0, 0, 0, 0, 0, 44, 1, 0, 0, 0, 0, 0, 0]

/-- Root pointer at 64, extended table list at 128, and behind its three pointers an `"APIC"`
table at 192, a revision-4 `"FACP"` of declared length 116 at 256 and a revision-5 `"FACP"` at
300, which lies over bytes 44 to 115 of the table at 256. -/
def imgOverlap : Mem :=
  load 64 rsdpBytes
    (load 128 xsdt3o (load 192 apic (load 300 fadt5 (load 256 fadt4 (fun _ => 0)))))

/-- The table `fadtHost` with byte 112 raised from 58 to 59 and the checksum byte lowered from
141 to 140: the 36 bytes from offset 80 sum to 225, and to 1 once bit 21 is set. -/
def fadtHostOff : List Nat :=
  [70, 65, 67, 80, 116, 0, 0, 0, 5, 140] ++ List.replicate 70 0 ++
    [82, 83, 68, 32, 80, 84, 82, 32, 223, 0, 0, 0, 0, 0, 0, 2, 0, 0, 0, 0, 36, 0, 0, 0,
      128, 2, 0, 0, 0, 0, 0, 0, 59, 0, 0, 0]

/-- The image `imgNested` with the table `fadtHostOff` at 384. -/
def imgNestedOff : Mem := load 384 fadtHostOff imgNested

/-! ## Memory lemmas -/

theorem rd8_lt (m : Mem) (a : Nat) : rd8 m a < 256 := Nat.mod_lt _ (by decide)

theorem rd32_lt (m : Mem) (a : Nat) : rd32 m a < 2 ^ 32 := by
  have h0 := rd8_lt m a
  have h1 := rd8_lt m (a + 1)
  have h2 := rd8_lt m (a + 2)
  have h3 := rd8_lt m (a + 3)
  unfold rd32
  omega

theorem rd64_lt (m : Mem) (a : Nat) : rd64 m a < 2 ^ 64 := by
  have h0 := rd32_lt m a
  have h1 := rd32_lt m (a + 4)
  unfold rd64
  omega

theorem rd8_wr8_same (m : Mem) (a v : Nat) : rd8 (wr8 m a v) a = v % 256 := by
  simp [rd8, wr8]

theorem rd8_wr8_ne (m : Mem) (a v x : Nat) (h : x ≠ a) : rd8 (wr8 m a v) x = rd8 m x := by
  simp [rd8, wr8, h]

theorem wr8_ne (m : Mem) (a v x : Nat) (h : x ≠ a) : wr8 m a v x = m x := by
  simp [wr8, h]

theorem wr8_wr8_same (m : Mem) (a v w : Nat) : wr8 (wr8 m a v) a w = wr8 m a w := by
  funext x
  by_cases h : x = a <;> simp [wr8, h]

theorem rd32_wr8_ne (m : Mem) (a v p : Nat) (h : a < p ∨ p + 4 ≤ a) :
    rd32 (wr8 m a v) p = rd32 m p := by
  unfold rd32
  rw [rd8_wr8_ne m a v p (by omega), rd8_wr8_ne m a v (p + 1) (by omega),
    rd8_wr8_ne m a v (p + 2) (by omega), rd8_wr8_ne m a v (p + 3) (by omega)]

/-- The case split of `subUINTN` is subtraction modulo `2 ^ 64`. -/
theorem subUINTN_eq_mod (a b : Nat) (ha : a < 2 ^ 64) (hb : b ≤ 2 ^ 64) :
    subUINTN a b = (a + 2 ^ 64 - b) % 2 ^ 64 := by
  unfold subUINTN
  split <;> omega

/-! ## Checksum lemmas -/

theorem SumBytes_zero (m : Mem) (arr : Nat) : SumBytes m arr 0 = 0 := rfl

theorem SumBytes_succ (m : Mem) (arr n : Nat) :
    SumBytes m arr (n + 1) = (SumBytes m arr n + rd8 m (arr + n)) % 256 := by
  simp [SumBytes, List.range_succ, List.foldl_append]

theorem SumBytes_lt (m : Mem) (arr n : Nat) : SumBytes m arr n < 256 := by
  cases n with
  | zero => simp [SumBytes_zero]
  | succ k => rw [SumBytes_succ]; exact Nat.mod_lt _ (by decide)

theorem SumBytes_congr (m m' : Mem) (arr n : Nat)
    (h : ∀ i, i < n → rd8 m (arr + i) = rd8 m' (arr + i)) :
    SumBytes m arr n = SumBytes m' arr n := by
  induction n with
  | zero => rfl
  | succ k ih =>
    rw [SumBytes_succ, SumBytes_succ, ih (fun i hi => h i (by omega)), h k (by omega)]

/-- Changing the byte at offset `k` from `0` to `v` adds `v` to the sum of any range that
contains offset `k`. -/
theorem SumBytes_wr8 (m : Mem) (arr k v n : Nat) (hn : k < n) :
    SumBytes (wr8 m (arr + k) v) arr n = (SumBytes (wr8 m (arr + k) 0) arr n + v) % 256 := by
  induction n with
  | zero => omega
  | succ j ih =>
    rw [SumBytes_succ, SumBytes_succ]
    by_cases hj : j = k
    · subst hj
      rw [rd8_wr8_same, rd8_wr8_same]
      have hc : SumBytes (wr8 m (arr + j) v) arr j = SumBytes (wr8 m (arr + j) 0) arr j := by
        apply SumBytes_congr
        intro i hi
        rw [rd8_wr8_ne _ _ _ _ (by omega), rd8_wr8_ne _ _ _ _ (by omega)]
      rw [hc]
      omega
    · rw [ih (by omega), rd8_wr8_ne _ _ _ _ (by omega), rd8_wr8_ne _ _ _ _ (by omega)]
      omega

theorem rd32_SetAcpiSdtChecksum (m : Mem) (arr p : Nat) (h : arr + 9 < p ∨ p + 4 ≤ arr + 9) :
    rd32 (SetAcpiSdtChecksum m arr) p = rd32 m p := by
  show rd32 (wr8 (wr8 m (arr + 9) 0) (arr + 9) _) p = rd32 m p
  rw [rd32_wr8_ne _ _ _ _ h, rd32_wr8_ne _ _ _ _ h]

theorem SetAcpiSdtChecksum_frame (m : Mem) (arr a : Nat) (h : a ≠ arr + 9) :
    SetAcpiSdtChecksum m arr a = m a := by
  show wr8 (wr8 m (arr + 9) 0) (arr + 9) _ a = m a
  rw [wr8_ne _ _ _ _ h, wr8_ne _ _ _ _ h]

/-- After `SetAcpiSdtChecksum` the sum over the declared length is zero as soon as the
checksum byte lies inside the declared length. -/
theorem SumBytes_SetAcpiSdtChecksum (m : Mem) (arr : Nat) (h : 10 ≤ rd32 m (arr + 4)) :
    SumBytes (SetAcpiSdtChecksum m arr) arr (rd32 m (arr + 4)) = 0 := by
  show SumBytes (wr8 (wr8 m (arr + 9) 0) (arr + 9)
    ((256 - SumBytes (wr8 m (arr + 9) 0) arr (rd32 m (arr + 4))) % 256)) arr _ = 0
  rw [wr8_wr8_same, SumBytes_wr8 m arr 9 _ _ (by omega)]
  have hs := SumBytes_lt (wr8 m (arr + 9) 0) arr (rd32 m (arr + 4))
  omega

/-! ## C2 -/

/-- C2. Recompute then Verify: whenever the declared length (the little-endian field at bytes
4..7, which is the length both routines use) is at least 10, so that the checksum byte at
offset 9 lies inside the summed range, `VerifyAcpiSdtChecksum` returns true on the memory left
by `SetAcpiSdtChecksum`. -/
theorem C2_recompute_then_verify (m : Mem) (arr : Nat) (h : 10 ≤ rd32 m (arr + HDR_Length)) :
    VerifyAcpiSdtChecksum (SetAcpiSdtChecksum m arr) arr = true := by
  unfold HDR_Length at h
  show (SumBytes (SetAcpiSdtChecksum m arr) arr (rd32 (SetAcpiSdtChecksum m arr) (arr + 4)) == 0)
    = true
  rw [rd32_SetAcpiSdtChecksum m arr (arr + 4) (by omega), SumBytes_SetAcpiSdtChecksum m arr h]
  rfl

/-! ## The patch step -/

theorem rd32_wr32_same (m : Mem) (a v : Nat) : rd32 (wr32 m a v) a = v % 2 ^ 32 := by
  unfold rd32 wr32
  rw [rd8_wr8_ne _ _ _ _ (by omega), rd8_wr8_ne _ _ _ _ (by omega), rd8_wr8_ne _ _ _ _ (by omega),
    rd8_wr8_same, rd8_wr8_ne _ _ _ _ (by omega), rd8_wr8_ne _ _ _ _ (by omega), rd8_wr8_same,
    rd8_wr8_ne _ _ _ _ (by omega), rd8_wr8_same, rd8_wr8_same]
  omega

theorem wr32_frame (m : Mem) (a v x : Nat) (h : x < a ∨ a + 4 ≤ x) : wr32 m a v x = m x := by
  unfold wr32
  rw [wr8_ne _ _ _ _ (by omega), wr8_ne _ _ _ _ (by omega), wr8_ne _ _ _ _ (by omega),
    wr8_ne _ _ _ _ (by omega)]

theorem rd8_wr32_frame (m : Mem) (a v x : Nat) (h : x < a ∨ a + 4 ≤ x) :
    rd8 (wr32 m a v) x = rd8 m x := by
  unfold rd8
  rw [wr32_frame m a v x h]

theorem rd32_wr32_frame (m : Mem) (a v p : Nat) (h : p + 4 ≤ a ∨ a + 4 ≤ p) :
    rd32 (wr32 m a v) p = rd32 m p := by
  unfold rd32
  rw [rd8_wr32_frame _ _ _ _ (by omega), rd8_wr32_frame _ _ _ _ (by omega),
    rd8_wr32_frame _ _ _ _ (by omega), rd8_wr32_frame _ _ _ _ (by omega)]

theorem bit21_iff (x : Nat) : ((x >>> 21) &&& 1 ≠ 0) ↔ x.testBit 21 = true := by
  rw [Nat.testBit_to_div_mod, Nat.and_one_is_mod, Nat.shiftRight_eq_div_pow]
  simp

theorem bit21_or (x : Nat) : ((x ||| (1 <<< 21)) % 2 ^ 32).testBit 21 = true := by
  rw [Nat.testBit_mod_two_pow, Nat.testBit_or, Nat.one_shiftLeft, Nat.testBit_two_pow_self]
  simp

theorem or_bit21_mod (x : Nat) (h : x < 2 ^ 32) : (x ||| (1 <<< 21)) % 2 ^ 32 = x ||| 2 ^ 21 := by
  rw [Nat.one_shiftLeft]
  exact Nat.mod_eq_of_lt (Nat.or_lt_two_pow h (by decide))

/-- The memory the `else` branch of the patch step produces. -/
theorem patchFadt_clear (m : Mem) (Fadt : Nat) (h : ¬ s0LowPowerIdle m Fadt) :
    patchFadt m Fadt =
      (SetAcpiSdtChecksum (wr32 m (Fadt + FADT_Flags)
          ((rd32 m (Fadt + FADT_Flags) ||| (1 <<< 21)) % 2 ^ 32)) Fadt,
        [Msg.FadtFlags (rd32 m (Fadt + FADT_Flags)), Msg.SettingFlag, Msg.SettingChecksum,
          Msg.PatchCompleted]) := by
  unfold s0LowPowerIdle at h
  unfold patchFadt
  rw [if_neg h]

theorem patchFadt_set (m : Mem) (Fadt : Nat) (h : s0LowPowerIdle m Fadt) :
    patchFadt m Fadt = (m, [Msg.FadtFlags (rd32 m (Fadt + FADT_Flags)), Msg.AlreadyEnabled]) := by
  unfold s0LowPowerIdle at h
  unfold patchFadt
  rw [if_pos h]

/-- The flags field after the `else` branch of the patch step. -/
theorem patchFadt_flags (m : Mem) (Fadt : Nat) (h : ¬ s0LowPowerIdle m Fadt) :
    rd32 (patchFadt m Fadt).1 (Fadt + FADT_Flags) = rd32 m (Fadt + FADT_Flags) ||| 2 ^ 21 := by
  rw [patchFadt_clear m Fadt h]
  show rd32 (SetAcpiSdtChecksum _ Fadt) (Fadt + FADT_Flags) = _
  rw [rd32_SetAcpiSdtChecksum _ _ _ (by unfold FADT_Flags; omega), rd32_wr32_same,
    Nat.mod_mod, or_bit21_mod _ (rd32_lt _ _)]

theorem patchFadt_frame (m : Mem) (Fadt a : Nat) (h : ¬ fadtWritten Fadt a) :
    (patchFadt m Fadt).1 a = m a := by
  unfold fadtWritten FADT_Flags HDR_Checksum at h
  by_cases hb : s0LowPowerIdle m Fadt
  · rw [patchFadt_set m Fadt hb]
  · rw [patchFadt_clear m Fadt hb]
    show SetAcpiSdtChecksum _ Fadt a = m a
    rw [SetAcpiSdtChecksum_frame _ _ _ (by omega), wr32_frame _ _ _ _ (by unfold FADT_Flags; omega)]

/-- Whatever the branch, the flag is set in the memory the patch step leaves. -/
theorem patchFadt_enabled (m : Mem) (Fadt : Nat) : s0LowPowerIdle (patchFadt m Fadt).1 Fadt := by
  by_cases hb : s0LowPowerIdle m Fadt
  · rw [patchFadt_set m Fadt hb]; exact hb
  · unfold s0LowPowerIdle
    rw [patchFadt_flags m Fadt hb, bit21_iff, Nat.testBit_or, Nat.testBit_two_pow_self]
    simp

theorem or_bit21_add_aux (q r : Nat) (hr : r < 2 ^ 21) :
    (2 ^ 22 * q + r) ||| 2 ^ 21 = 2 ^ 22 * q + r + 2 ^ 21 := by
  have e1 : 2 ^ 22 * q + r = 2 ^ 22 * q ||| r := Nat.mul_add_lt_is_or (by omega) q
  have e2 : 2 ^ 21 * 1 + r = 2 ^ 21 * 1 ||| r := Nat.mul_add_lt_is_or hr 1
  have e3 : 2 ^ 22 * q + (2 ^ 21 * 1 + r) = 2 ^ 22 * q ||| (2 ^ 21 * 1 + r) :=
    Nat.mul_add_lt_is_or (by omega) q
  rw [e1, Nat.or_assoc, Nat.or_comm r, ← Nat.mul_one (2 ^ 21), ← e2, ← e3, ← e1]
  omega

/-- Setting a clear bit 21 adds `2 ^ 21`. -/
theorem or_bit21_add (x : Nat) (h : x.testBit 21 = false) : x ||| 2 ^ 21 = x + 2 ^ 21 := by
  have hd : x / 2 ^ 21 % 2 = 0 := by
    rw [Nat.testBit_to_div_mod] at h
    have := of_decide_eq_false h
    omega
  have hx : x = 2 ^ 22 * (x / 2 ^ 22) + x % 2 ^ 21 := by omega
  have := or_bit21_add_aux (x / 2 ^ 22) (x % 2 ^ 21) (Nat.mod_lt _ (by decide))
  rw [← hx] at this
  exact this

theorem rd8_wr32_0 (m : Mem) (p v : Nat) : rd8 (wr32 m p v) p = v % 256 := by
  simp [wr32, rd8, wr8]

theorem rd8_wr32_1 (m : Mem) (p v : Nat) : rd8 (wr32 m p v) (p + 1) = v / 256 % 256 := by
  simp [wr32, rd8, wr8]

theorem rd8_wr32_3 (m : Mem) (p v : Nat) : rd8 (wr32 m p v) (p + 3) = v / 16777216 % 256 := by
  simp [wr32, rd8, wr8]

/-- The `else` branch of the patch step changes the value of no byte other than the checksum
byte and byte 2 of the flags field, the byte that holds bit 21. -/
theorem patchFadt_bytes (m : Mem) (Fadt a : Nat) (hc : ¬ s0LowPowerIdle m Fadt)
    (h9 : a ≠ Fadt + HDR_Checksum) (h114 : a ≠ Fadt + FADT_Flags + 2) :
    rd8 (patchFadt m Fadt).1 a = rd8 m a := by
  by_cases hw : fadtWritten Fadt a
  · have hbit : (rd32 m (Fadt + FADT_Flags)).testBit 21 = false := by
      have hn : ¬ (rd32 m (Fadt + FADT_Flags)).testBit 21 = true :=
        fun t => hc ((bit21_iff _).mpr t)
      simpa using hn
    have hv : (rd32 m (Fadt + FADT_Flags) ||| (1 <<< 21)) % 2 ^ 32
        = rd32 m (Fadt + FADT_Flags) + 2 ^ 21 := by
      rw [or_bit21_mod _ (rd32_lt _ _), or_bit21_add _ hbit]
    have hd : rd32 m (Fadt + FADT_Flags) / 2 ^ 21 % 2 = 0 := by
      rw [Nat.testBit_to_div_mod] at hbit
      have := of_decide_eq_false hbit
      omega
    have hS : ∀ m' : Mem, rd8 (SetAcpiSdtChecksum m' Fadt) a = rd8 m' a := by
      intro m'
      unfold rd8
      rw [SetAcpiSdtChecksum_frame m' Fadt a h9]
    rw [patchFadt_clear m Fadt hc, hv]
    show rd8 (SetAcpiSdtChecksum (wr32 m (Fadt + FADT_Flags) _) Fadt) a = rd8 m a
    rw [hS]
    unfold fadtWritten at hw
    have h0 := rd8_lt m (Fadt + FADT_Flags)
    have h1 := rd8_lt m (Fadt + FADT_Flags + 1)
    have h2 := rd8_lt m (Fadt + FADT_Flags + 2)
    have h3 := rd8_lt m (Fadt + FADT_Flags + 3)
    have hcases : a = Fadt + FADT_Flags ∨ a = Fadt + FADT_Flags + 1 ∨
        a = Fadt + FADT_Flags + 3 := by omega
    unfold rd32 at hd ⊢
    rcases hcases with rfl | rfl | rfl
    · rw [rd8_wr32_0]
      omega
    · rw [rd8_wr32_1]
      omega
    · rw [rd8_wr32_3]
      omega
  · unfold rd8
    rw [patchFadt_frame m Fadt a hw]

/-! ## `efi_main`: the three stages -/

theorem scanStage_Fadt (m : Mem) (loc : LocState) :
    (scanStage m loc).Fadt =
      if loc.Rsdp ≠ 0 ∧ loc.XsdtHeader ≠ 0 then (scanEntries m loc.XsdtHeader).Fadt else 0 := by
  unfold scanStage
  split <;> rfl

theorem patchStage_mem (m : Mem) (sc : ScanState) :
    (patchStage m sc).1 = if sc.Fadt ≠ 0 then (patchFadt m sc.Fadt).1 else m := by
  unfold patchStage
  split <;> rfl

theorem efi_main_Fadt (cfg : List EFI_CONFIGURATION_TABLE) (m : Mem) :
    (efi_main cfg m).Fadt = (scanStage m (locateTables cfg m)).Fadt := rfl

theorem efi_main_mem (cfg : List EFI_CONFIGURATION_TABLE) (m : Mem) :
    (efi_main cfg m).mem =
      if (efi_main cfg m).Fadt ≠ 0 then (patchFadt m (efi_main cfg m).Fadt).1 else m :=
  patchStage_mem m (scanStage m (locateTables cfg m))

/-! ## The entry scan -/

theorem scanLoop_zero (m : Mem) (EntryAddress j : Nat) (log : List Msg) :
    scanLoop m EntryAddress 0 j log = ⟨0, log⟩ := rfl

/-- The body of the second loop, one iteration unfolded. -/
theorem scanLoop_succ (m : Mem) (X n j : Nat) (log : List Msg) :
    scanLoop m (X + sizeof_EFI_ACPI_DESCRIPTION_HEADER) (n + 1) j log =
      if rd32 m (xsdtEntry m X j + HDR_Signature)
          != EFI_ACPI_2_0_FIXED_ACPI_DESCRIPTION_TABLE_SIGNATURE then
        scanLoop m (X + sizeof_EFI_ACPI_DESCRIPTION_HEADER) n (j + 1) (log ++ [Msg.NotFadt j])
      else if rd8 m (xsdtEntry m X j + HDR_Revision)
          < EFI_ACPI_5_0_FIXED_ACPI_DESCRIPTION_TABLE_REVISION then
        scanLoop m (X + sizeof_EFI_ACPI_DESCRIPTION_HEADER) n (j + 1)
          (log ++ [Msg.FadtRevisionBelow5 j])
      else ⟨xsdtEntry m X j, log ++ [Msg.FadtLocated]⟩ := rfl

/-- One iteration of the second loop on an entry that fails one of the two tests. -/
theorem scanLoop_skip (m : Mem) (X n j : Nat) (log : List Msg)
    (h : ¬ isFadt5 m (xsdtEntry m X j)) :
    ∃ log', scanLoop m (X + sizeof_EFI_ACPI_DESCRIPTION_HEADER) (n + 1) j log =
      scanLoop m (X + sizeof_EFI_ACPI_DESCRIPTION_HEADER) n (j + 1) log' := by
  unfold isFadt5 at h
  rw [scanLoop_succ]
  by_cases hs : rd32 m (xsdtEntry m X j + HDR_Signature)
      = EFI_ACPI_2_0_FIXED_ACPI_DESCRIPTION_TABLE_SIGNATURE
  · have hr : rd8 m (xsdtEntry m X j + HDR_Revision)
        < EFI_ACPI_5_0_FIXED_ACPI_DESCRIPTION_TABLE_REVISION := by
      by_contra hc
      exact h ⟨hs, Nat.le_of_not_lt hc⟩
    refine ⟨log ++ [Msg.FadtRevisionBelow5 j], ?_⟩
    rw [if_neg (by simp [hs]), if_pos hr]
  · refine ⟨log ++ [Msg.NotFadt j], ?_⟩
    rw [if_pos (by simp [hs])]

/-- One iteration of the second loop on an entry that passes both tests. -/
theorem scanLoop_hit (m : Mem) (X n j : Nat) (log : List Msg)
    (h : isFadt5 m (xsdtEntry m X j)) :
    scanLoop m (X + sizeof_EFI_ACPI_DESCRIPTION_HEADER) (n + 1) j log =
      ⟨xsdtEntry m X j, log ++ [Msg.FadtLocated]⟩ := by
  unfold isFadt5 at h
  rw [scanLoop_succ, if_neg (by simp [h.1]), if_neg (Nat.not_lt.mpr h.2)]

theorem scanLoop_none (m : Mem) (X : Nat) :
    ∀ (n j : Nat) (log : List Msg),
      (∀ i, j ≤ i → i < j + n → ¬ isFadt5 m (xsdtEntry m X i)) →
      (scanLoop m (X + sizeof_EFI_ACPI_DESCRIPTION_HEADER) n j log).Fadt = 0 := by
  intro n
  induction n with
  | zero => intro j log _; rfl
  | succ k ih =>
    intro j log h
    obtain ⟨log', hl⟩ := scanLoop_skip m X k j log (h j (Nat.le_refl j) (by omega))
    rw [hl]
    exact ih (j + 1) log' (fun i h1 h2 => h i (by omega) (by omega))

theorem scanLoop_first (m : Mem) (X : Nat) :
    ∀ (n j : Nat) (log : List Msg) (k : Nat), j ≤ k → k < j + n →
      isFadt5 m (xsdtEntry m X k) →
      (∀ i, j ≤ i → i < k → ¬ isFadt5 m (xsdtEntry m X i)) →
      (scanLoop m (X + sizeof_EFI_ACPI_DESCRIPTION_HEADER) n j log).Fadt = xsdtEntry m X k := by
  intro n
  induction n with
  | zero => intro j log k h1 h2; omega
  | succ c ih =>
    intro j log k h1 h2 hk hlt
    by_cases hjk : j = k
    · subst hjk
      rw [scanLoop_hit m X c j log hk]
    · obtain ⟨log', hl⟩ := scanLoop_skip m X c j log (hlt j (Nat.le_refl j) (by omega))
      rw [hl]
      exact ih (j + 1) log' k (by omega) (by omega) hk (fun i h3 h4 => hlt i (by omega) h4)

/-- A non-null result of the second loop passes both tests. -/
theorem scanLoop_sound (m : Mem) (X : Nat) :
    ∀ (n j : Nat) (log : List Msg),
      (scanLoop m (X + sizeof_EFI_ACPI_DESCRIPTION_HEADER) n j log).Fadt ≠ 0 →
      isFadt5 m (scanLoop m (X + sizeof_EFI_ACPI_DESCRIPTION_HEADER) n j log).Fadt := by
  intro n
  induction n with
  | zero => intro j log h; exact absurd rfl h
  | succ c ih =>
    intro j log h
    by_cases hq : isFadt5 m (xsdtEntry m X j)
    · rw [scanLoop_hit m X c j log hq]
      exact hq
    · obtain ⟨log', hl⟩ := scanLoop_skip m X c j log hq
      rw [hl] at h ⊢
      exact ih (j + 1) log' h

theorem scanEntries_Fadt (m : Mem) (X : Nat) :
    (scanEntries m X).Fadt =
      (scanLoop m (X + sizeof_EFI_ACPI_DESCRIPTION_HEADER) (EntryArraySize m X) 0
        [Msg.XsdtCount (EntryArraySize m X)]).Fadt := rfl

/-- C6. First-match entry scan: the scan over the pointer array of the extended table list at
`X` returns the pointer at the least index `j` whose header has the power-management-table
signature and a revision of at least 5; entries before it that fail either test, a
right-signature entry of revision below 5 included, are passed over without stopping the scan;
a non-null result always passes both tests; and when no index passes both, the result is
`NULL`. -/
theorem C6_first_match_scan (m : Mem) (X : Nat) :
    (∀ j, j < EntryArraySize m X → isFadt5 m (xsdtEntry m X j) →
        (∀ i, i < j → ¬ isFadt5 m (xsdtEntry m X i)) →
        (scanEntries m X).Fadt = xsdtEntry m X j) ∧
    ((scanEntries m X).Fadt ≠ 0 → isFadt5 m (scanEntries m X).Fadt) ∧
    ((∀ j, j < EntryArraySize m X → ¬ isFadt5 m (xsdtEntry m X j)) →
        (scanEntries m X).Fadt = 0) := by
  refine ⟨?_, ?_, ?_⟩
  · intro j hj hq hlt
    rw [scanEntries_Fadt]
    exact scanLoop_first m X _ 0 _ j (Nat.zero_le j) (by omega) hq (fun i _ h => hlt i h)
  · intro h
    rw [scanEntries_Fadt] at h ⊢
    exact scanLoop_sound m X _ 0 _ h
  · intro h
    rw [scanEntries_Fadt]
    exact scanLoop_none m X _ 0 _ (fun i _ h2 => h i (by omega))

/-! ## The configuration-table scan -/

/-- The body of the first loop, one iteration unfolded. -/
theorem locateLoop_cons (m : Mem) (e : EFI_CONFIGURATION_TABLE)
    (es : List EFI_CONFIGURATION_TABLE) (i : Nat) (s : LocState) :
    locateLoop m (e :: es) i s =
      if (!CompareGuid e.VendorGuid AcpiTableGuid && !CompareGuid e.VendorGuid Acpi20TableGuid)
      then locateLoop m es (i + 1) ⟨s.Rsdp, s.XsdtHeader, s.log ++ [Msg.NotAcpiTable i]⟩
      else if (rd64 m e.VendorTable != EFI_ACPI_2_0_ROOT_SYSTEM_DESCRIPTION_POINTER_SIGNATURE
          || decide (rd8 m (e.VendorTable + RSDP_Revision)
                < EFI_ACPI_2_0_ROOT_SYSTEM_DESCRIPTION_POINTER_REVISION)
          || !VerifyAcpiRsdp2Checksums m e.VendorTable)
      then locateLoop m es (i + 1) ⟨0, s.XsdtHeader, s.log ++ [Msg.InvalidRsdp i]⟩
      else if (rd32 m (xsdtOf m e.VendorTable + HDR_Signature)
              != EFI_ACPI_2_0_EXTENDED_SYSTEM_DESCRIPTION_TABLE_SIGNATURE
            || !VerifyAcpiSdtChecksum m (xsdtOf m e.VendorTable))
      then locateLoop m es (i + 1) ⟨e.VendorTable, 0,
        s.log ++ [Msg.RsdpRev i (rd8 m (e.VendorTable + RSDP_Revision))] ++ [Msg.InvalidXsdt i]⟩
      else ⟨e.VendorTable, xsdtOf m e.VendorTable,
        s.log ++ [Msg.RsdpRev i (rd8 m (e.VendorTable + RSDP_Revision))]⟩ := rfl

theorem guidTest_iff (e : EFI_CONFIGURATION_TABLE) :
    (!CompareGuid e.VendorGuid AcpiTableGuid && !CompareGuid e.VendorGuid Acpi20TableGuid) = true
      ↔ ¬ isAcpiGuid e := by
  simp [CompareGuid, isAcpiGuid]

theorem rsdpTest_iff (m : Mem) (p : Nat) :
    (rd64 m p != EFI_ACPI_2_0_ROOT_SYSTEM_DESCRIPTION_POINTER_SIGNATURE
          || decide (rd8 m (p + RSDP_Revision)
                < EFI_ACPI_2_0_ROOT_SYSTEM_DESCRIPTION_POINTER_REVISION)
          || !VerifyAcpiRsdp2Checksums m p) = true ↔ ¬ rsdpValid m p := by
  unfold rsdpValid VerifyAcpiRsdp2Checksums RSDP_Length
  simp only [Bool.or_eq_true, bne_iff_ne, ne_eq, decide_eq_true_eq, Bool.not_eq_true',
    Bool.and_eq_false_imp, beq_iff_eq, beq_eq_false_iff_ne, not_and, ← Nat.not_le]
  tauto

theorem xsdtTest_iff (m : Mem) (x : Nat) :
    (rd32 m (x + HDR_Signature) != EFI_ACPI_2_0_EXTENDED_SYSTEM_DESCRIPTION_TABLE_SIGNATURE
            || !VerifyAcpiSdtChecksum m x) = true ↔ ¬ xsdtValid m x := by
  unfold xsdtValid VerifyAcpiSdtChecksum HDR_Length
  simp only [Bool.or_eq_true, bne_iff_ne, ne_eq, Bool.not_eq_true', beq_eq_false_iff_ne, not_and]
  tauto

theorem locateLoop_notAcpi (m : Mem) (e : EFI_CONFIGURATION_TABLE)
    (es : List EFI_CONFIGURATION_TABLE) (i : Nat) (s : LocState) (h : ¬ isAcpiGuid e) :
    locateLoop m (e :: es) i s =
      locateLoop m es (i + 1) ⟨s.Rsdp, s.XsdtHeader, s.log ++ [Msg.NotAcpiTable i]⟩ := by
  rw [locateLoop_cons, if_pos ((guidTest_iff e).mpr h)]

theorem locateLoop_badRsdp (m : Mem) (e : EFI_CONFIGURATION_TABLE)
    (es : List EFI_CONFIGURATION_TABLE) (i : Nat) (s : LocState) (h : isAcpiGuid e)
    (hr : ¬ rsdpValid m e.VendorTable) :
    locateLoop m (e :: es) i s =
      locateLoop m es (i + 1) ⟨0, s.XsdtHeader, s.log ++ [Msg.InvalidRsdp i]⟩ := by
  rw [locateLoop_cons, if_neg (fun c => (guidTest_iff e).mp c h),
    if_pos ((rsdpTest_iff m e.VendorTable).mpr hr)]

theorem locateLoop_badXsdt (m : Mem) (e : EFI_CONFIGURATION_TABLE)
    (es : List EFI_CONFIGURATION_TABLE) (i : Nat) (s : LocState) (h : isAcpiGuid e)
    (hr : rsdpValid m e.VendorTable) (hx : ¬ xsdtValid m (xsdtOf m e.VendorTable)) :
    locateLoop m (e :: es) i s =
      locateLoop m es (i + 1) ⟨e.VendorTable, 0,
        s.log ++ [Msg.RsdpRev i (rd8 m (e.VendorTable + RSDP_Revision))] ++ [Msg.InvalidXsdt i]⟩ := by
  rw [locateLoop_cons, if_neg (fun c => (guidTest_iff e).mp c h),
    if_neg (fun c => (rsdpTest_iff m e.VendorTable).mp c hr),
    if_pos ((xsdtTest_iff m _).mpr hx)]

theorem locateLoop_found (m : Mem) (e : EFI_CONFIGURATION_TABLE)
    (es : List EFI_CONFIGURATION_TABLE) (i : Nat) (s : LocState) (h : goodEntry m e) :
    locateLoop m (e :: es) i s =
      ⟨e.VendorTable, xsdtOf m e.VendorTable,
        s.log ++ [Msg.RsdpRev i (rd8 m (e.VendorTable + RSDP_Revision))]⟩ := by
  rw [locateLoop_cons, if_neg (fun c => (guidTest_iff e).mp c h.1),
    if_neg (fun c => (rsdpTest_iff m e.VendorTable).mp c h.2.1),
    if_neg (fun c => (xsdtTest_iff m _).mp c h.2.2)]

/-- An entry that does not make the loop `break` hands some state on to the next index. -/
theorem locateLoop_step (m : Mem) (e : EFI_CONFIGURATION_TABLE)
    (es : List EFI_CONFIGURATION_TABLE) (i : Nat) (s : LocState) (h : ¬ goodEntry m e) :
    locateLoop m (e :: es) i s = locateLoop m es (i + 1) (locateLoop m [e] i s) := by
  by_cases hg : isAcpiGuid e
  · by_cases hr : rsdpValid m e.VendorTable
    · have hx : ¬ xsdtValid m (xsdtOf m e.VendorTable) := fun c => h ⟨hg, hr, c⟩
      rw [locateLoop_badXsdt m e es i s hg hr hx, locateLoop_badXsdt m e [] i s hg hr hx]
      rfl
    · rw [locateLoop_badRsdp m e es i s hg hr, locateLoop_badRsdp m e [] i s hg hr]
      rfl
  · rw [locateLoop_notAcpi m e es i s hg, locateLoop_notAcpi m e [] i s hg]
    rfl

/-- After an entry that does not make the loop `break`, `XsdtHeader` is what it was before the
entry or `NULL`. -/
theorem locateLoop_single_Xsdt (m : Mem) (e : EFI_CONFIGURATION_TABLE) (i : Nat) (s : LocState)
    (h : ¬ goodEntry m e) (hs : s.XsdtHeader = 0) : (locateLoop m [e] i s).XsdtHeader = 0 := by
  by_cases hg : isAcpiGuid e
  · by_cases hr : rsdpValid m e.VendorTable
    · have hx : ¬ xsdtValid m (xsdtOf m e.VendorTable) := fun c => h ⟨hg, hr, c⟩
      rw [locateLoop_badXsdt m e [] i s hg hr hx]
      rfl
    · rw [locateLoop_badRsdp m e [] i s hg hr]
      exact hs
  · rw [locateLoop_notAcpi m e [] i s hg]
    exact hs

/-- When no entry makes the loop `break`, `XsdtHeader` ends `NULL`. -/
theorem locateLoop_noGood (m : Mem) :
    ∀ (cfg : List EFI_CONFIGURATION_TABLE) (i : Nat) (s : LocState),
      (∀ e, e ∈ cfg → ¬ goodEntry m e) → s.XsdtHeader = 0 →
      (locateLoop m cfg i s).XsdtHeader = 0 := by
  intro cfg
  induction cfg with
  | nil => intro i s _ hs; exact hs
  | cons e es ih =>
    intro i s h hs
    have he : ¬ goodEntry m e := h e (List.mem_cons_self e es)
    rw [locateLoop_step m e es i s he]
    exact ih (i + 1) _ (fun x hx => h x (List.mem_cons_of_mem e hx))
      (locateLoop_single_Xsdt m e i s he hs)

/-- Entries that do not make the loop `break` are passed over one by one. -/
theorem locateLoop_append (m : Mem) (rest : List EFI_CONFIGURATION_TABLE) :
    ∀ (pre : List EFI_CONFIGURATION_TABLE) (i : Nat) (s : LocState),
      (∀ e, e ∈ pre → ¬ goodEntry m e) →
      locateLoop m (pre ++ rest) i s = locateLoop m rest (i + pre.length) (locateLoop m pre i s) := by
  intro pre
  induction pre with
  | nil => intro i s _; rfl
  | cons e es ih =>
    intro i s h
    have he : ¬ goodEntry m e := h e (List.mem_cons_self e es)
    rw [List.cons_append, locateLoop_step m e (es ++ rest) i s he,
      ih (i + 1) _ (fun x hx => h x (List.mem_cons_of_mem e hx)),
      locateLoop_step m e es i s he, List.length_cons]
    congr 1
    omega

/-! ## The stages put together -/

theorem scanEntries_none (m : Mem) (X : Nat)
    (h : ∀ j, j < EntryArraySize m X → ¬ isFadt5 m (xsdtEntry m X j)) :
    (scanEntries m X).Fadt = 0 := by
  rw [scanEntries_Fadt]
  exact scanLoop_none m X _ 0 _ (fun i _ h2 => h i (by omega))

theorem scanEntries_first (m : Mem) (X j : Nat) (hj : j < EntryArraySize m X)
    (hq : isFadt5 m (xsdtEntry m X j)) (hlt : ∀ i, i < j → ¬ isFadt5 m (xsdtEntry m X i)) :
    (scanEntries m X).Fadt = xsdtEntry m X j := by
  rw [scanEntries_Fadt]
  exact scanLoop_first m X _ 0 _ j (Nat.zero_le j) (by omega) hq (fun i _ h => hlt i h)

theorem efi_main_log (cfg : List EFI_CONFIGURATION_TABLE) (m : Mem) :
    (efi_main cfg m).log =
      (patchStage m (scanStage m (locateTables cfg m))).2 ++ [Msg.PressAnyKey] := rfl

theorem scanStage_skipped (m : Mem) (loc : LocState) (h : loc.XsdtHeader = 0) :
    scanStage m loc = ⟨0, loc.log⟩ := by
  unfold scanStage
  rw [if_neg (fun c => c.2 h)]

theorem patchStage_skipped (m : Mem) (sc : ScanState) (h : sc.Fadt = 0) :
    patchStage m sc = (m, sc.log) := by
  unfold patchStage
  rw [if_neg (fun c => c h)]

theorem patchStage_entered (m : Mem) (sc : ScanState) (h : sc.Fadt ≠ 0) :
    patchStage m sc = ((patchFadt m sc.Fadt).1, sc.log ++ (patchFadt m sc.Fadt).2) := by
  unfold patchStage
  rw [if_pos h]

/-- The value of `Fadt` when the entry scan runs on entries none of which passes both tests, or
does not run at all. -/
theorem scanStage_none (m : Mem) (loc : LocState)
    (h : ∀ j, j < EntryArraySize m loc.XsdtHeader → ¬ isFadt5 m (xsdtEntry m loc.XsdtHeader j)) :
    (scanStage m loc).Fadt = 0 := by
  rw [scanStage_Fadt]
  by_cases hg : loc.Rsdp ≠ 0 ∧ loc.XsdtHeader ≠ 0
  · rw [if_pos hg]
    exact scanEntries_none m loc.XsdtHeader h
  · rw [if_neg hg]

/-- A run in which `Fadt` stays `NULL` writes nothing and prints nothing after the scan. -/
theorem efi_main_no_patch (cfg : List EFI_CONFIGURATION_TABLE) (m : Mem)
    (h : (scanStage m (locateTables cfg m)).Fadt = 0) :
    (efi_main cfg m).mem = m ∧
      (efi_main cfg m).log = (scanStage m (locateTables cfg m)).log ++ [Msg.PressAnyKey] := by
  constructor
  · show (patchStage m (scanStage m (locateTables cfg m))).1 = m
    rw [patchStage_skipped m _ h]
  · rw [efi_main_log, patchStage_skipped m _ h]

/-- The memory and the text of a run in which `Fadt` is not `NULL`. -/
theorem efi_main_patch (cfg : List EFI_CONFIGURATION_TABLE) (m : Mem)
    (h : (efi_main cfg m).Fadt ≠ 0) :
    (efi_main cfg m).mem = (patchFadt m (efi_main cfg m).Fadt).1 ∧
      (efi_main cfg m).log = (scanStage m (locateTables cfg m)).log ++
        (patchFadt m (efi_main cfg m).Fadt).2 ++ [Msg.PressAnyKey] := by
  constructor
  · rw [efi_main_mem, if_pos h]
  · rw [efi_main_log, patchStage_entered m _ h]
    rfl

/-- The checksum of the patched table: zero over the declared length whenever it was zero
before the patch step. -/
theorem patchFadt_checksum (m : Mem) (Fadt : Nat) (hc : ¬ s0LowPowerIdle m Fadt)
    (hv : SumBytes m Fadt (rd32 m (Fadt + HDR_Length)) = 0) :
    SumBytes (patchFadt m Fadt).1 Fadt (rd32 (patchFadt m Fadt).1 (Fadt + HDR_Length)) = 0 := by
  have hlen : rd32 (wr32 m (Fadt + FADT_Flags)
      ((rd32 m (Fadt + FADT_Flags) ||| (1 <<< 21)) % 2 ^ 32)) (Fadt + 4)
        = rd32 m (Fadt + 4) :=
    rd32_wr32_frame _ _ _ _ (by unfold FADT_Flags; omega)
  unfold HDR_Length at hv ⊢
  by_cases hl : 10 ≤ rd32 m (Fadt + 4)
  · rw [patchFadt_clear m Fadt hc]
    show SumBytes (SetAcpiSdtChecksum _ Fadt) Fadt (rd32 (SetAcpiSdtChecksum _ Fadt) (Fadt + 4)) = 0
    rw [rd32_SetAcpiSdtChecksum _ _ _ (by omega)]
    exact SumBytes_SetAcpiSdtChecksum _ Fadt (by rw [hlen]; exact hl)
  · have hsame : rd32 (patchFadt m Fadt).1 (Fadt + 4) = rd32 m (Fadt + 4) := by
      rw [patchFadt_clear m Fadt hc]
      show rd32 (SetAcpiSdtChecksum _ Fadt) (Fadt + 4) = _
      rw [rd32_SetAcpiSdtChecksum _ _ _ (by omega), hlen]
    rw [hsame, ← hv]
    apply SumBytes_congr
    intro i hi
    unfold rd8
    rw [patchFadt_frame m Fadt (Fadt + i)
      (by unfold fadtWritten FADT_Flags HDR_Checksum; omega)]

/-! ## The claims on the patch step and the pipeline -/

/-- C1, as stated, fails: in `imgOverlap` the located extended table list is valid and its
three entries are what the property asks for (at 192 a table without the
power-management-table signature, at 256 one with that signature and revision 4, at 300 one
with that signature, revision 5, bit 21 clear and a checksum that verifies); the run selects
the third entry and sets its bit 21, and byte 309, which lies inside the declared length
`[256, 372)` of the second entry, is changed from 72 to 40. -/
theorem C1_counterexample :
    (locateTables cfgAcpi imgOverlap).Rsdp ≠ 0 ∧
      (locateTables cfgAcpi imgOverlap).XsdtHeader = 128 ∧
      xsdtValid imgOverlap 128 ∧ EntryArraySize imgOverlap 128 = 3 ∧
      xsdtEntry imgOverlap 128 0 = 192 ∧ xsdtEntry imgOverlap 128 1 = 256 ∧
      xsdtEntry imgOverlap 128 2 = 300 ∧
      rd32 imgOverlap (192 + HDR_Signature)
        ≠ EFI_ACPI_2_0_FIXED_ACPI_DESCRIPTION_TABLE_SIGNATURE ∧
      rd32 imgOverlap (256 + HDR_Signature)
        = EFI_ACPI_2_0_FIXED_ACPI_DESCRIPTION_TABLE_SIGNATURE ∧
      rd8 imgOverlap (256 + HDR_Revision) < EFI_ACPI_5_0_FIXED_ACPI_DESCRIPTION_TABLE_REVISION ∧
      isFadt5 imgOverlap 300 ∧ ¬ s0LowPowerIdle imgOverlap 300 ∧
      VerifyAcpiSdtChecksum imgOverlap 300 = true ∧
      (efi_main cfgAcpi imgOverlap).Fadt = 300 ∧
      s0LowPowerIdle (efi_main cfgAcpi imgOverlap).mem 300 ∧
      VerifyAcpiSdtChecksum (efi_main cfgAcpi imgOverlap).mem 300 = true ∧
      rd32 imgOverlap (256 + HDR_Length) = 116 ∧ 256 ≤ 309 ∧ 309 < 256 + 116 ∧
      rd8 imgOverlap 309 = 72 ∧ rd8 (efi_main cfgAcpi imgOverlap).mem 309 = 40 := by
  decide

/-- C1, amended. End-to-end patch: when the first loop hands over a root pointer and an
extended table list `X` (both non-null), and the pointer array of `X` holds at index 0 a table
without the power-management-table signature, at index 1 one with that signature and a revision
below 5, and at index 2 a (non-null) one with that signature, revision at least 5, flags bit 21
clear and a checksum that verifies, then the run selects entry 2 of the array (the third
entry), writes no address other than that entry's four flag bytes and its checksum byte and
changes the value of no byte other than byte 2 of its flags field (offset 114, the byte that
holds bit 21) and its checksum byte (offset 9), so that the first two entries, like any other
range of bytes, are untouched wherever they do not contain one of those two bytes, sets bit 21
of its flags, and leaves it with a byte-sum of 0 modulo 256 over its declared length. -/
theorem C1_end_to_end_patch (cfg : List EFI_CONFIGURATION_TABLE) (m : Mem) (X : Nat)
    (hR : (locateTables cfg m).Rsdp ≠ 0) (hX : (locateTables cfg m).XsdtHeader = X)
    (hX0 : X ≠ 0) (hn : 3 ≤ EntryArraySize m X)
    (h1 : rd32 m (xsdtEntry m X 0 + HDR_Signature)
      ≠ EFI_ACPI_2_0_FIXED_ACPI_DESCRIPTION_TABLE_SIGNATURE)
    (h2 : rd32 m (xsdtEntry m X 1 + HDR_Signature)
        = EFI_ACPI_2_0_FIXED_ACPI_DESCRIPTION_TABLE_SIGNATURE ∧
      rd8 m (xsdtEntry m X 1 + HDR_Revision) < EFI_ACPI_5_0_FIXED_ACPI_DESCRIPTION_TABLE_REVISION)
    (h3 : isFadt5 m (xsdtEntry m X 2)) (h3n : xsdtEntry m X 2 ≠ 0)
    (hclear : ¬ s0LowPowerIdle m (xsdtEntry m X 2))
    (hsum : VerifyAcpiSdtChecksum m (xsdtEntry m X 2) = true) :
    (efi_main cfg m).Fadt = xsdtEntry m X 2 ∧
    (∀ a, ¬ fadtWritten (xsdtEntry m X 2) a → (efi_main cfg m).mem a = m a) ∧
    (∀ T L, (∀ k, k < L → ¬ fadtWritten (xsdtEntry m X 2) (T + k)) →
      ∀ k, k < L → (efi_main cfg m).mem (T + k) = m (T + k)) ∧
    rd32 (efi_main cfg m).mem (xsdtEntry m X 2 + FADT_Flags)
      = rd32 m (xsdtEntry m X 2 + FADT_Flags) ||| 2 ^ 21 ∧
    s0LowPowerIdle (efi_main cfg m).mem (xsdtEntry m X 2) ∧
    VerifyAcpiSdtChecksum (efi_main cfg m).mem (xsdtEntry m X 2) = true ∧
    (∀ a, a ≠ xsdtEntry m X 2 + HDR_Checksum → a ≠ xsdtEntry m X 2 + FADT_Flags + 2 →
      rd8 (efi_main cfg m).mem a = rd8 m a) := by
  have hF : (efi_main cfg m).Fadt = xsdtEntry m X 2 := by
    rw [efi_main_Fadt, scanStage_Fadt, hX, if_pos ⟨hR, hX0⟩]
    refine scanEntries_first m X 2 (by omega) h3 ?_
    intro i hi
    have hi' : i = 0 ∨ i = 1 := by omega
    rcases hi' with rfl | rfl
    · exact fun c => h1 c.1
    · exact fun c => Nat.not_le.mpr h2.2 c.2
  have hne : (efi_main cfg m).Fadt ≠ 0 := by rw [hF]; exact h3n
  have hmem : (efi_main cfg m).mem = (patchFadt m (xsdtEntry m X 2)).1 := by
    rw [(efi_main_patch cfg m hne).1, hF]
  have hv : SumBytes m (xsdtEntry m X 2) (rd32 m (xsdtEntry m X 2 + HDR_Length)) = 0 := by
    have := hsum
    unfold VerifyAcpiSdtChecksum at this
    simpa [HDR_Length] using this
  refine ⟨hF, ?_, ?_, ?_, ?_, ?_, ?_⟩
  · intro a ha
    rw [hmem]
    exact patchFadt_frame m _ a ha
  · intro T L h k hk
    rw [hmem]
    exact patchFadt_frame m _ _ (h k hk)
  · rw [hmem]
    exact patchFadt_flags m _ hclear
  · rw [hmem]
    exact patchFadt_enabled m _
  · rw [hmem]
    have := patchFadt_checksum m _ hclear hv
    unfold VerifyAcpiSdtChecksum
    simpa [HDR_Length] using this
  · intro a h9 h114
    rw [hmem]
    exact patchFadt_bytes m _ a hclear h9 h114

/-- C4. End-to-end AlreadyEnabled: when the run selects a table (`Fadt` is not null) whose flags
bit 21 is already set, it takes the "already enabled" branch, printing the flags and that
message and nothing else before the final prompt, and memory after the run is memory before
the run, the selected table and its checksum byte included. -/
theorem C4_already_enabled (cfg : List EFI_CONFIGURATION_TABLE) (m : Mem)
    (hsel : (efi_main cfg m).Fadt ≠ 0) (hset : s0LowPowerIdle m (efi_main cfg m).Fadt) :
    (efi_main cfg m).mem = m ∧
    (efi_main cfg m).log = (scanStage m (locateTables cfg m)).log ++
      [Msg.FadtFlags (rd32 m ((efi_main cfg m).Fadt + FADT_Flags)), Msg.AlreadyEnabled] ++
      [Msg.PressAnyKey] := by
  have h := efi_main_patch cfg m hsel
  rw [patchFadt_set m _ hset] at h
  exact h

/-- C5. Idempotence of the patch step: on every memory and every table address, the patch step
run on the memory the patch step produced takes the "already enabled" branch, returns that
memory unchanged, and bit 21 is set in it. -/
theorem C5_patch_idempotent (m : Mem) (Fadt : Nat) :
    patchFadt (patchFadt m Fadt).1 Fadt =
      ((patchFadt m Fadt).1,
        [Msg.FadtFlags (rd32 (patchFadt m Fadt).1 (Fadt + FADT_Flags)), Msg.AlreadyEnabled]) ∧
    (patchFadt (patchFadt m Fadt).1 Fadt).1 = (patchFadt m Fadt).1 ∧
    s0LowPowerIdle (patchFadt m Fadt).1 Fadt := by
  have h := patchFadt_set (patchFadt m Fadt).1 Fadt (patchFadt_enabled m Fadt)
  refine ⟨h, ?_, patchFadt_enabled m Fadt⟩
  rw [h]

/-! ## The claims on the configuration-table scan -/

theorem rsdpSignature_value :
    EFI_ACPI_2_0_ROOT_SYSTEM_DESCRIPTION_POINTER_SIGNATURE = 0x2052545020445352 := by decide

/-- The 64-bit signature comparison of line 88 is the comparison of the eight signature bytes
with `"RSD PTR "`. -/
theorem rd64_signature_iff (m : Mem) (p : Nat) :
    rd64 m p = EFI_ACPI_2_0_ROOT_SYSTEM_DESCRIPTION_POINTER_SIGNATURE ↔
      rsdpSignatureBytes m p := by
  have h0 := rd8_lt m p
  have h1 := rd8_lt m (p + 1)
  have h2 := rd8_lt m (p + 2)
  have h3 := rd8_lt m (p + 3)
  have h4 := rd8_lt m (p + 4)
  have h5 := rd8_lt m (p + 4 + 1)
  have h6 := rd8_lt m (p + 4 + 2)
  have h7 := rd8_lt m (p + 4 + 3)
  have c0 : 'R'.toNat = 82 := rfl
  have c1 : 'S'.toNat = 83 := rfl
  have c2 : 'D'.toNat = 68 := rfl
  have c3 : ' '.toNat = 32 := rfl
  have c4 : 'P'.toNat = 80 := rfl
  have c5 : 'T'.toNat = 84 := rfl
  rw [rsdpSignature_value]
  unfold rsdpSignatureBytes rd64 rd32
  rw [c0, c1, c2, c3, c4, c5]
  have e5 : p + 5 = p + 4 + 1 := rfl
  have e6 : p + 6 = p + 4 + 2 := rfl
  have e7 : p + 7 = p + 4 + 3 := rfl
  rw [e5, e6, e7]
  omega

/-- C7. Root-pointer acceptance: one pass of the first loop over a configuration-table entry
reaches line 97 (the entry is taken as a root pointer, `RSDP Rev` is printed) exactly when the
identifier is one of the two ACPI identifiers, the eight signature bytes spell `"RSD PTR "`,
the revision byte is at least 2, the first 20 bytes sum to 0 modulo 256 and the bytes over the
declared length (the 32-bit field at offset 20) sum to 0 modulo 256; `Rsdp` then holds the
entry's pointer. An entry with neither identifier is passed over with no read of memory: the
locals are kept and only `Not ACPI table` is printed, whatever memory holds. -/
theorem C7_root_pointer_acceptance (m : Mem) (e : EFI_CONFIGURATION_TABLE) (i : Nat) :
    (Msg.RsdpRev i (rd8 m (e.VendorTable + RSDP_Revision)) ∈ (locateLoop m [e] i ⟨0, 0, []⟩).log ↔
      isAcpiGuid e ∧ rsdpSignatureBytes m e.VendorTable ∧
        2 ≤ rd8 m (e.VendorTable + 15) ∧ SumBytes m e.VendorTable 20 = 0 ∧
        SumBytes m e.VendorTable (rd32 m (e.VendorTable + 20)) = 0) ∧
    (Msg.RsdpRev i (rd8 m (e.VendorTable + RSDP_Revision)) ∈ (locateLoop m [e] i ⟨0, 0, []⟩).log →
      (locateLoop m [e] i ⟨0, 0, []⟩).Rsdp = e.VendorTable) ∧
    (¬ isAcpiGuid e → ∀ (m' : Mem) (s : LocState),
      locateLoop m' [e] i s = ⟨s.Rsdp, s.XsdtHeader, s.log ++ [Msg.NotAcpiTable i]⟩) := by
  have hval : rsdpValid m e.VendorTable ↔ rsdpSignatureBytes m e.VendorTable ∧
        2 ≤ rd8 m (e.VendorTable + 15) ∧ SumBytes m e.VendorTable 20 = 0 ∧
        SumBytes m e.VendorTable (rd32 m (e.VendorTable + 20)) = 0 := by
    unfold rsdpValid
    rw [rd64_signature_iff]
    rfl
  refine ⟨?_, ?_, ?_⟩
  · rw [← hval]
    by_cases hg : isAcpiGuid e
    · by_cases hr : rsdpValid m e.VendorTable
      · by_cases hx : xsdtValid m (xsdtOf m e.VendorTable)
        · rw [locateLoop_found m e [] i _ ⟨hg, hr, hx⟩]
          simp [hg, hr]
        · rw [locateLoop_badXsdt m e [] i _ hg hr hx]
          simp [hg, hr, locateLoop]
      · rw [locateLoop_badRsdp m e [] i _ hg hr]
        simp [hr, locateLoop]
    · rw [locateLoop_notAcpi m e [] i _ hg]
      simp [hg, locateLoop]
  · by_cases hg : isAcpiGuid e
    · by_cases hr : rsdpValid m e.VendorTable
      · by_cases hx : xsdtValid m (xsdtOf m e.VendorTable)
        · rw [locateLoop_found m e [] i _ ⟨hg, hr, hx⟩]
          intro _
          rfl
        · rw [locateLoop_badXsdt m e [] i _ hg hr hx]
          intro _
          rfl
      · rw [locateLoop_badRsdp m e [] i _ hg hr]
        simp [locateLoop]
    · rw [locateLoop_notAcpi m e [] i _ hg]
      simp [locateLoop]
  · intro hg m' s
    rw [locateLoop_notAcpi m' e [] i s hg]
    rfl

/-- C8, as stated, fails: in `imgTwoRoots` the first configuration-table entry has an ACPI
identifier and a root pointer that passes the signature, revision and checksum checks, yet the
scan does not stop there; the second entry is examined and it is the second entry's root
pointer that is handed on. -/
theorem C8_counterexample :
    isAcpiGuid ⟨Acpi20TableGuid, 512⟩ ∧ rsdpValid imgTwoRoots 512 ∧
      (locateTables cfgTwoRoots imgTwoRoots).Rsdp = 64 ∧
      (locateTables cfgTwoRoots imgTwoRoots).XsdtHeader = 128 ∧
      Msg.RsdpRev 1 2 ∈ (locateTables cfgTwoRoots imgTwoRoots).log := by
  decide

/-- C8, amended. The scan of the configuration table stops at the first entry whose identifier
is an ACPI identifier, whose root pointer passes the signature, revision and checksum checks
and whose extended table list passes its signature and checksum checks: that root pointer and
that list are handed to the entry scan, and the outcome of the scan is the same whatever
entries follow. -/
theorem C8_first_valid_pair_wins (m : Mem) (pre post : List EFI_CONFIGURATION_TABLE)
    (e : EFI_CONFIGURATION_TABLE) (hpre : ∀ x, x ∈ pre → ¬ goodEntry m x) (he : goodEntry m e) :
    (locateTables (pre ++ e :: post) m).Rsdp = e.VendorTable ∧
    (locateTables (pre ++ e :: post) m).XsdtHeader = xsdtOf m e.VendorTable ∧
    (∀ post', locateTables (pre ++ e :: post') m = locateTables (pre ++ e :: post) m) := by
  have key : ∀ q, locateTables (pre ++ e :: q) m =
      ⟨e.VendorTable, xsdtOf m e.VendorTable,
        (locateLoop m pre 0 ⟨0, 0, [Msg.Banner]⟩).log ++
          [Msg.RsdpRev (0 + pre.length) (rd8 m (e.VendorTable + RSDP_Revision))]⟩ := by
    intro q
    unfold locateTables
    rw [locateLoop_append m (e :: q) pre 0 _ hpre, locateLoop_found m e q _ _ he]
  refine ⟨?_, ?_, ?_⟩
  · rw [key post]
  · rw [key post]
  · intro post'
    rw [key post', key post]

/-- C9 on the image `imgCorrupt`: the table at 384 does not verify before the run, the run
selects it, sets bit 21, prints `FADT patch completed` and leaves it with a checksum that
verifies. -/
theorem C9_unverified_table_is_patched :
    VerifyAcpiSdtChecksum imgCorrupt 384 = false ∧
      (efi_main cfgAcpi imgCorrupt).Fadt = 384 ∧
      rd32 imgCorrupt (384 + FADT_Flags) = 0x421 ∧
      rd32 (efi_main cfgAcpi imgCorrupt).mem (384 + FADT_Flags) = 0x200421 ∧
      rd8 imgCorrupt (384 + HDR_Checksum) = 73 ∧
      rd8 (efi_main cfgAcpi imgCorrupt).mem (384 + HDR_Checksum) = 40 ∧
      Msg.PatchCompleted ∈ (efi_main cfgAcpi imgCorrupt).log ∧
      VerifyAcpiSdtChecksum (efi_main cfgAcpi imgCorrupt).mem 384 = true := by
  decide

/-- C10. NotFound short-circuit: when no configuration-table entry has an ACPI identifier, a
valid root pointer and a valid extended table list, neither the entry scan nor the patch step
runs (nothing is printed between the text of the first loop and the final prompt, `Fadt` stays
null); when no entry of the pointer array passes both tests of the entry scan, the patch step
does not run (nothing is printed between the text of the scan and the final prompt, `Fadt`
stays null); in both cases memory after the run is memory before the run. -/
theorem C10_not_found (cfg : List EFI_CONFIGURATION_TABLE) (m : Mem) :
    ((∀ e, e ∈ cfg → ¬ goodEntry m e) →
      (efi_main cfg m).XsdtHeader = 0 ∧ (efi_main cfg m).Fadt = 0 ∧
      (efi_main cfg m).log = (locateTables cfg m).log ++ [Msg.PressAnyKey] ∧
      (efi_main cfg m).mem = m) ∧
    ((∀ j, j < EntryArraySize m (locateTables cfg m).XsdtHeader →
        ¬ isFadt5 m (xsdtEntry m (locateTables cfg m).XsdtHeader j)) →
      (efi_main cfg m).Fadt = 0 ∧
      (efi_main cfg m).log = (scanStage m (locateTables cfg m)).log ++ [Msg.PressAnyKey] ∧
      (efi_main cfg m).mem = m) := by
  constructor
  · intro h
    have hx : (locateTables cfg m).XsdtHeader = 0 := locateLoop_noGood m cfg 0 _ h rfl
    have hs : scanStage m (locateTables cfg m) = ⟨0, (locateTables cfg m).log⟩ :=
      scanStage_skipped m _ hx
    have hf : (scanStage m (locateTables cfg m)).Fadt = 0 := by rw [hs]
    have hp := efi_main_no_patch cfg m hf
    rw [hs] at hp
    exact ⟨hx, hf, hp.2, hp.1⟩
  · intro h
    have hf : (scanStage m (locateTables cfg m)).Fadt = 0 := scanStage_none m _ h
    have hp := efi_main_no_patch cfg m hf
    exact ⟨hf, hp.2, hp.1⟩

/-! ## The theorems at concrete images -/

/-- C1, amended, at the image `imgPatch`: every hypothesis holds there, the third entry, at
384, is selected, flagged and left with a checksum that verifies, and the first two entries, at
192 and 256, are untouched over their declared lengths 36 and 116. -/
theorem C1_end_to_end_patch_witness :
    (efi_main cfgAcpi imgPatch).Fadt = xsdtEntry imgPatch 128 2 ∧
      (∀ k, k < 36 → (efi_main cfgAcpi imgPatch).mem (192 + k) = imgPatch (192 + k)) ∧
      (∀ k, k < 116 → (efi_main cfgAcpi imgPatch).mem (256 + k) = imgPatch (256 + k)) ∧
      s0LowPowerIdle (efi_main cfgAcpi imgPatch).mem (xsdtEntry imgPatch 128 2) ∧
      VerifyAcpiSdtChecksum (efi_main cfgAcpi imgPatch).mem (xsdtEntry imgPatch 128 2) = true :=
  have h := C1_end_to_end_patch cfgAcpi imgPatch 128 (by decide) (by decide) (by decide)
    (by decide) (by decide) (by decide) (by decide) (by decide) (by decide) (by decide)
  ⟨h.1, h.2.2.1 192 36 (by decide), h.2.2.1 256 116 (by decide), h.2.2.2.2.1, h.2.2.2.2.2.1⟩

/-- C2 at the table at 384 of `imgCorrupt`, whose declared length is 116 and whose checksum is
wrong before the recomputation. -/
theorem C2_recompute_then_verify_witness :
    10 ≤ rd32 imgCorrupt (384 + HDR_Length) ∧
      VerifyAcpiSdtChecksum (SetAcpiSdtChecksum imgCorrupt 384) 384 = true :=
  ⟨by decide, C2_recompute_then_verify imgCorrupt 384 (by decide)⟩

/-- C4 at the image `imgEnabled`. -/
theorem C4_already_enabled_witness :
    (efi_main cfgAcpi imgEnabled).Fadt ≠ 0 ∧ (efi_main cfgAcpi imgEnabled).mem = imgEnabled :=
  ⟨by decide, (C4_already_enabled cfgAcpi imgEnabled (by decide) (by decide)).1⟩

/-- C6 at the images `imgPatch` (the third entry is the first to pass both tests) and
`imgNoFadt` (no entry passes both). -/
theorem C6_first_match_scan_witness :
    (scanEntries imgPatch 128).Fadt = xsdtEntry imgPatch 128 2 ∧
      isFadt5 imgPatch (scanEntries imgPatch 128).Fadt ∧
      (scanEntries imgNoFadt 128).Fadt = 0 :=
  ⟨(C6_first_match_scan imgPatch 128).1 2 (by decide) (by decide) (by decide),
    (C6_first_match_scan imgPatch 128).2.1 (by decide),
    (C6_first_match_scan imgNoFadt 128).2.2 (by decide)⟩

/-- C7 at the root pointer at 64 of `imgPatch`, once under an ACPI identifier and once under a
foreign one. -/
theorem C7_root_pointer_acceptance_witness :
    Msg.RsdpRev 0 (rd8 imgPatch (64 + RSDP_Revision))
        ∈ (locateLoop imgPatch [⟨Acpi20TableGuid, 64⟩] 0 ⟨0, 0, []⟩).log ∧
      locateLoop imgPatch [⟨⟨1, 2, 3, []⟩, 64⟩] 0 ⟨0, 0, []⟩ = ⟨0, 0, [] ++ [Msg.NotAcpiTable 0]⟩ :=
  ⟨(C7_root_pointer_acceptance imgPatch ⟨Acpi20TableGuid, 64⟩ 0).1.mpr (by decide),
    (C7_root_pointer_acceptance imgPatch ⟨⟨1, 2, 3, []⟩, 64⟩ 0).2.2 (by decide) imgPatch
      ⟨0, 0, []⟩⟩

/-- C8, amended, at the image `imgTwoRoots`: the entry for the root pointer at 512 is passed
over and the one for the root pointer at 64 wins. -/
theorem C8_first_valid_pair_wins_witness :
    (locateTables ([⟨Acpi20TableGuid, 512⟩] ++ ⟨AcpiTableGuid, 64⟩ :: []) imgTwoRoots).Rsdp = 64 ∧
      (locateTables ([⟨Acpi20TableGuid, 512⟩] ++ ⟨AcpiTableGuid, 64⟩ :: []) imgTwoRoots).XsdtHeader
        = xsdtOf imgTwoRoots 64 :=
  have h := C8_first_valid_pair_wins imgTwoRoots [⟨Acpi20TableGuid, 512⟩] []
    ⟨AcpiTableGuid, 64⟩ (by decide) (by decide)
  ⟨h.1, h.2.1⟩

/-- C10 at a configuration table without ACPI entry and at the image `imgNoFadt`. -/
theorem C10_not_found_witness :
    (efi_main cfgForeign imgPatch).mem = imgPatch ∧
      (efi_main cfgAcpi imgNoFadt).mem = imgNoFadt ∧ (efi_main cfgAcpi imgNoFadt).Fadt = 0 :=
  ⟨((C10_not_found cfgForeign imgPatch).1 (by decide)).2.2.2,
    ((C10_not_found cfgAcpi imgNoFadt).2 (by decide)).2.2,
    ((C10_not_found cfgAcpi imgNoFadt).2 (by decide)).1⟩

/-! ## The checksum as arithmetic -/

theorem SumBytes_shift (m m' : Mem) (arr arr' n : Nat)
    (h : ∀ i, i < n → rd8 m (arr + i) = rd8 m' (arr' + i)) :
    SumBytes m arr n = SumBytes m' arr' n := by
  induction n with
  | zero => rfl
  | succ k ih =>
    rw [SumBytes_succ, SumBytes_succ, ih (fun i hi => h i (by omega)), h k (by omega)]

/-- The sum over a range is the sum over its first part plus the sum over the rest, modulo
256. -/
theorem SumBytes_add (m : Mem) (arr a b : Nat) :
    SumBytes m arr (a + b) = (SumBytes m arr a + SumBytes m (arr + a) b) % 256 := by
  induction b with
  | zero =>
    rw [Nat.add_zero, SumBytes_zero, Nat.add_zero, Nat.mod_eq_of_lt (SumBytes_lt m arr a)]
  | succ k ih =>
    rw [← Nat.add_assoc, SumBytes_succ, SumBytes_succ, ih, Nat.add_assoc arr a k]
    omega

theorem SumBytes_eq_reference (m : Mem) (arr n : Nat) :
    SumBytes m arr n = ComputeSum_reference m arr n := by
  induction n with
  | zero => rfl
  | succ k ih =>
    rw [SumBytes_succ, ih]
    unfold ComputeSum_reference
    rw [List.range_succ, List.map_append, List.sum_append]
    simp only [List.map_cons, List.map_nil, List.sum_cons, List.sum_nil, Nat.add_zero]
    omega

theorem rd8_bufMem_left (A B : List Nat) (i : Nat) (h : i < A.length) :
    rd8 (bufMem (A ++ B)) i = rd8 (bufMem A) i := by
  unfold rd8 bufMem
  rw [List.getD_append _ _ _ _ h]

theorem rd8_bufMem_right (A B : List Nat) (i : Nat) :
    rd8 (bufMem (A ++ B)) (A.length + i) = rd8 (bufMem B) i := by
  unfold rd8 bufMem
  rw [List.getD_append_right _ _ _ _ (by omega)]
  simp

/-- The sum of a range that contains offset `k`, split into the byte at `k` and the rest. -/
theorem SumBytes_wr8_old (m : Mem) (arr k n : Nat) (hn : k < n) :
    SumBytes m arr n = (SumBytes (wr8 m (arr + k) 0) arr n + rd8 m (arr + k)) % 256 := by
  have h1 := SumBytes_wr8 m arr k (m (arr + k)) n hn
  have h2 : SumBytes (wr8 m (arr + k) (m (arr + k))) arr n = SumBytes m arr n := by
    apply SumBytes_congr
    intro i _
    by_cases hi : arr + i = arr + k
    · rw [hi, rd8_wr8_same]
      rfl
    · rw [rd8_wr8_ne _ _ _ _ hi]
  rw [← h2, h1]
  unfold rd8
  omega

theorem SetAcpiSdtChecksum_eq (m : Mem) (arr : Nat) :
    SetAcpiSdtChecksum m arr =
      wr8 m (arr + 9) ((256 - SumBytes (wr8 m (arr + 9) 0) arr (rd32 m (arr + 4))) % 256) := by
  show wr8 (wr8 m (arr + 9) 0) (arr + 9) _ = _
  rw [wr8_wr8_same]

theorem rd8_SetAcpiSdtChecksum (m : Mem) (arr : Nat) :
    rd8 (SetAcpiSdtChecksum m arr) (arr + 9) =
      (256 - SumBytes (wr8 m (arr + 9) 0) arr (rd32 m (arr + 4))) % 256 := by
  rw [SetAcpiSdtChecksum_eq, rd8_wr8_same, Nat.mod_mod]

theorem SetAcpiSdtChecksum_idem (m : Mem) (arr : Nat) :
    SetAcpiSdtChecksum (SetAcpiSdtChecksum m arr) arr = SetAcpiSdtChecksum m arr := by
  rw [SetAcpiSdtChecksum_eq (SetAcpiSdtChecksum m arr),
    rd32_SetAcpiSdtChecksum m arr (arr + 4) (by omega), SetAcpiSdtChecksum_eq m arr,
    wr8_wr8_same, wr8_wr8_same]

/-! ## The claims on the checksum routines -/

/-- C11. The checksum is additive over concatenation: for all byte buffers `A` and `B`,
`SumBytes` of `A ++ B` over `|A| + |B|` bytes is the sum of `SumBytes` of `A` and `SumBytes` of
`B` modulo 256. The second part says the same of any range of memory cut in two. -/
theorem C11_checksum_additive :
    (∀ A B : List Nat,
      SumBytes (bufMem (A ++ B)) 0 (A.length + B.length) =
        (SumBytes (bufMem A) 0 A.length + SumBytes (bufMem B) 0 B.length) % 256) ∧
    (∀ (m : Mem) (arr a b : Nat),
      SumBytes m arr (a + b) = (SumBytes m arr a + SumBytes m (arr + a) b) % 256) := by
  refine ⟨fun A B => ?_, SumBytes_add⟩
  rw [SumBytes_add,
    SumBytes_shift (bufMem (A ++ B)) (bufMem A) 0 0 A.length
      (fun i hi => by rw [Nat.zero_add, rd8_bufMem_left A B i hi]),
    SumBytes_shift (bufMem (A ++ B)) (bufMem B) (0 + A.length) 0 B.length
      (fun i _ => by rw [Nat.zero_add, Nat.zero_add, rd8_bufMem_right A B i])]

/-- C12. Single-byte corruption of the legacy range is detected: when the first 20 bytes at `p`
sum to 0 modulo 256, replacing the byte at any offset `i < 20` by any byte value `v` other than
the one stored there leaves a 20-byte sum different from 0, and `VerifyAcpiRsdp2Checksums`
returns false. -/
theorem C12_single_byte_corruption (m : Mem) (p i v : Nat) (hsum : SumBytes m p 20 = 0)
    (hi : i < 20) (hv : v < 256) (hne : v ≠ rd8 m (p + i)) :
    SumBytes (wr8 m (p + i) v) p 20 ≠ 0 ∧
      VerifyAcpiRsdp2Checksums (wr8 m (p + i) v) p = false := by
  have h1 := SumBytes_wr8 m p i v 20 hi
  have h2 := SumBytes_wr8_old m p i 20 hi
  have h3 := SumBytes_lt (wr8 m (p + i) 0) p 20
  have h4 := rd8_lt m (p + i)
  have h5 : SumBytes (wr8 m (p + i) v) p 20 ≠ 0 := by omega
  refine ⟨h5, ?_⟩
  show (SumBytes (wr8 m (p + i) v) p 20 == 0 && _) = false
  rw [beq_eq_false_iff_ne.mpr h5]
  rfl

/-- C13. The checksum against its reference definition: `SumBytes m arr n` is the sum of the
`n` bytes from `arr`, taken in the natural numbers without bound, reduced modulo 256 (wrapping
at every step is the same as truncating once, and nothing saturates); and
`VerifyAcpiSdtChecksum` returns true exactly when that value, for `n` the declared length, is
0. -/
theorem C13_checksum_reference (m : Mem) (arr n : Nat) :
    SumBytes m arr n = ComputeSum_reference m arr n ∧
      (VerifyAcpiSdtChecksum m arr = true ↔
        ComputeSum_reference m arr (rd32 m (arr + HDR_Length)) = 0) := by
  refine ⟨SumBytes_eq_reference m arr n, ?_⟩
  rw [← SumBytes_eq_reference]
  show (SumBytes m arr (rd32 m (arr + 4)) == 0) = true ↔ _
  exact beq_iff_eq

/-- C14. The arithmetic of the recomputation: after `SetAcpiSdtChecksum` the byte at offset 9
is `(256 - s) mod 256`, where `s` is the 8-bit sum over the declared length of the table taken
with byte 9 set to 0, and every byte other than byte 9 is unchanged. -/
theorem C14_recompute_arithmetic (m : Mem) (arr : Nat) :
    rd8 (SetAcpiSdtChecksum m arr) (arr + HDR_Checksum) =
        (256 - SumBytes (wr8 m (arr + HDR_Checksum) 0) arr (rd32 m (arr + HDR_Length))) % 256 ∧
      ∀ a, a ≠ arr + HDR_Checksum → SetAcpiSdtChecksum m arr a = m a :=
  ⟨rd8_SetAcpiSdtChecksum m arr, fun a h => SetAcpiSdtChecksum_frame m arr a h⟩

/-- C17. Recomputing is the identity on valid tables: when the declared length is at least 10
and `VerifyAcpiSdtChecksum` returns true, `SetAcpiSdtChecksum` leaves every byte as it was,
byte 9 included; and for every table of declared length at least 10, applying
`SetAcpiSdtChecksum` twice gives the same memory as applying it once. -/
theorem C17_recompute_identity_on_valid (m : Mem) (arr : Nat)
    (hlen : 10 ≤ rd32 m (arr + HDR_Length)) :
    (VerifyAcpiSdtChecksum m arr = true → ∀ a, rd8 (SetAcpiSdtChecksum m arr) a = rd8 m a) ∧
      SetAcpiSdtChecksum (SetAcpiSdtChecksum m arr) arr = SetAcpiSdtChecksum m arr := by
  refine ⟨fun hv a => ?_, SetAcpiSdtChecksum_idem m arr⟩
  have hlen4 : 10 ≤ rd32 m (arr + 4) := hlen
  have hv0 : SumBytes m arr (rd32 m (arr + 4)) = 0 := beq_iff_eq.mp hv
  by_cases ha : a = arr + 9
  · subst ha
    rw [rd8_SetAcpiSdtChecksum]
    have h2 := SumBytes_wr8_old m arr 9 (rd32 m (arr + 4)) (by omega)
    have h3 := SumBytes_lt (wr8 m (arr + 9) 0) arr (rd32 m (arr + 4))
    have h4 := rd8_lt m (arr + 9)
    omega
  · unfold rd8
    rw [SetAcpiSdtChecksum_frame m arr a ha]

/-- C18. The checksum byte is unique: for a table of declared length at least 10, among the
256 byte values `v` the one that `SetAcpiSdtChecksum` writes at offset 9 is the only one for
which `VerifyAcpiSdtChecksum` returns true when byte 9 is set to `v` and every other byte is
kept. -/
theorem C18_checksum_byte_unique (m : Mem) (arr v : Nat)
    (hlen : 10 ≤ rd32 m (arr + HDR_Length)) (hv : v < 256) :
    VerifyAcpiSdtChecksum (wr8 m (arr + HDR_Checksum) v) arr = true ↔
      v = rd8 (SetAcpiSdtChecksum m arr) (arr + HDR_Checksum) := by
  have hlen4 : 10 ≤ rd32 m (arr + 4) := hlen
  show (SumBytes (wr8 m (arr + 9) v) arr (rd32 (wr8 m (arr + 9) v) (arr + 4)) == 0) = true ↔
    v = rd8 (SetAcpiSdtChecksum m arr) (arr + 9)
  rw [beq_iff_eq, rd32_wr8_ne m (arr + 9) v (arr + 4) (by omega), rd8_SetAcpiSdtChecksum,
    SumBytes_wr8 m arr 9 v _ (by omega)]
  have h3 := SumBytes_lt (wr8 m (arr + 9) 0) arr (rd32 m (arr + 4))
  omega

/-! ## The checksum claims at concrete images -/

/-- C12 at the root pointer at 64 of `imgPatch`: its byte 3, a space, is replaced by 7. -/
theorem C12_single_byte_corruption_witness :
    SumBytes imgPatch 64 20 = 0 ∧ 7 ≠ rd8 imgPatch (64 + 3) ∧
      SumBytes (wr8 imgPatch (64 + 3) 7) 64 20 ≠ 0 ∧
      VerifyAcpiRsdp2Checksums (wr8 imgPatch (64 + 3) 7) 64 = false :=
  ⟨by decide, by decide,
    C12_single_byte_corruption imgPatch 64 3 7 (by decide) (by decide) (by decide) (by decide)⟩

/-- C17 at the table at 384 of `imgPatch`, whose declared length is 116 and whose checksum is
right. -/
theorem C17_recompute_identity_on_valid_witness :
    10 ≤ rd32 imgPatch (384 + HDR_Length) ∧ VerifyAcpiSdtChecksum imgPatch 384 = true ∧
      (∀ a, rd8 (SetAcpiSdtChecksum imgPatch 384) a = rd8 imgPatch a) ∧
      SetAcpiSdtChecksum (SetAcpiSdtChecksum imgPatch 384) 384 = SetAcpiSdtChecksum imgPatch 384 :=
  have h := C17_recompute_identity_on_valid imgPatch 384 (by decide)
  ⟨by decide, by decide, h.1 (by decide), h.2⟩

/-- C18 at the table at 384 of `imgCorrupt`: the value 73 stored at offset 9 does not verify,
and 72, the value the recomputation writes, does. -/
theorem C18_checksum_byte_unique_witness :
    10 ≤ rd32 imgCorrupt (384 + HDR_Length) ∧
      rd8 (SetAcpiSdtChecksum imgCorrupt 384) (384 + HDR_Checksum) = 72 ∧
      (VerifyAcpiSdtChecksum (wr8 imgCorrupt (384 + HDR_Checksum) 72) 384 = true ↔
        72 = rd8 (SetAcpiSdtChecksum imgCorrupt 384) (384 + HDR_Checksum)) ∧
      VerifyAcpiSdtChecksum (wr8 imgCorrupt (384 + HDR_Checksum) 73) 384 = false :=
  ⟨by decide, by decide, C18_checksum_byte_unique imgCorrupt 384 72 (by decide) (by decide),
    by decide⟩

/-! ## The entry count -/

/-- From a declared length of 36 on, the subtraction of line 115 does not wrap: the entry count
is `(Length - 36) / 8` and the pointer array lies inside the declared length. -/
theorem EntryArraySize_of_le (m : Mem) (XsdtHeader : Nat)
    (h : 36 ≤ rd32 m (XsdtHeader + HDR_Length)) :
    EntryArraySize m XsdtHeader = (rd32 m (XsdtHeader + HDR_Length) - 36) / 8 ∧
      36 + 8 * EntryArraySize m XsdtHeader ≤ rd32 m (XsdtHeader + HDR_Length) := by
  have hl := rd32_lt m (XsdtHeader + HDR_Length)
  have he : EntryArraySize m XsdtHeader = (rd32 m (XsdtHeader + HDR_Length) - 36) / 8 := by
    show (subUINTN (rd32 m (XsdtHeader + HDR_Length)) 36 / 8) % 2 ^ 32 = _
    unfold subUINTN
    rw [if_pos h]
    omega
  rw [he]
  omega

/-- C15. The extended table list at 128 of `imgShortXsdt` has the signature `"XSDT"` and the
declared length 0, so both checks of the configuration-table scan pass; the entry count of
line 115 is then `4294967291`, not the `(0 - 36) / 8` of exact arithmetic and not a number of
pointers that fit in 0 bytes, and the scan follows the pointer stored 36 bytes past the header
start, selects the table at 384 and patches it. -/
theorem C15_short_xsdt_entry_count :
    xsdtValid imgShortXsdt 128 ∧ rd32 imgShortXsdt (128 + HDR_Length) = 0 ∧
      (efi_main cfgAcpi imgShortXsdt).XsdtHeader = 128 ∧
      EntryArraySize imgShortXsdt 128 = 4294967291 ∧
      (EntryArraySize imgShortXsdt 128 : Int) ≠
        ((rd32 imgShortXsdt (128 + HDR_Length) : Int) - 36) / 8 ∧
      ¬ (36 + 8 * EntryArraySize imgShortXsdt 128 ≤ rd32 imgShortXsdt (128 + HDR_Length)) ∧
      (efi_main cfgAcpi imgShortXsdt).Fadt = 384 ∧
      s0LowPowerIdle (efi_main cfgAcpi imgShortXsdt).mem 384 := by
  decide

/-! ## Candidates that fail and the candidate that wins -/

/-- A list with an entry that makes the loop `break` splits at the first such entry. -/
theorem exists_first_good (m : Mem) :
    ∀ cfg : List EFI_CONFIGURATION_TABLE, (∃ e, e ∈ cfg ∧ goodEntry m e) →
      ∃ pre e post, cfg = pre ++ e :: post ∧ (∀ x, x ∈ pre → ¬ goodEntry m x) ∧ goodEntry m e := by
  intro cfg
  induction cfg with
  | nil =>
    rintro ⟨e, he, _⟩
    cases he
  | cons a rest ih =>
    rintro ⟨e, he, hg⟩
    by_cases ha : goodEntry m a
    · exact ⟨[], a, rest, rfl, fun x hx => absurd hx (List.not_mem_nil x), ha⟩
    · have hmem : e ∈ rest := by
        rcases List.mem_cons.mp he with h | h
        · exact absurd (h ▸ hg) ha
        · exact h
      obtain ⟨pre, b, post, hcfg, hpre, hb⟩ := ih ⟨e, hmem, hg⟩
      refine ⟨a :: pre, b, post, by rw [hcfg]; rfl, ?_, hb⟩
      intro x hx
      rcases List.mem_cons.mp hx with h | h
      · rw [h]
        exact ha
      · exact hpre x h

/-- The locals after the first loop when the list splits at its first entry that makes the loop
`break`. -/
theorem locateTables_firstGood (m : Mem) (pre post : List EFI_CONFIGURATION_TABLE)
    (e : EFI_CONFIGURATION_TABLE) (hpre : ∀ x, x ∈ pre → ¬ goodEntry m x) (he : goodEntry m e) :
    locateTables (pre ++ e :: post) m =
      ⟨e.VendorTable, xsdtOf m e.VendorTable,
        (locateLoop m pre 0 ⟨0, 0, [Msg.Banner]⟩).log ++
          [Msg.RsdpRev (0 + pre.length) (rd8 m (e.VendorTable + RSDP_Revision))]⟩ := by
  unfold locateTables
  rw [locateLoop_append m (e :: post) pre 0 _ hpre, locateLoop_found m e post _ _ he]

/-- The locals after the first loop when a candidate that fails comes before any entry that
makes the loop `break`: the loop goes on with the entries after the candidate, from the next
index, with `XsdtHeader` reset. -/
theorem locateTables_fallThrough (m : Mem) (pre post : List EFI_CONFIGURATION_TABLE)
    (e : EFI_CONFIGURATION_TABLE) (hpre : ∀ x, x ∈ pre → ¬ goodEntry m x) (he : ¬ goodEntry m e) :
    locateTables (pre ++ e :: post) m =
        locateLoop m post (pre.length + 1) (locateLoop m (pre ++ [e]) 0 ⟨0, 0, [Msg.Banner]⟩) ∧
      (locateLoop m (pre ++ [e]) 0 ⟨0, 0, [Msg.Banner]⟩).XsdtHeader = 0 := by
  have hall : ∀ x, x ∈ pre ++ [e] → ¬ goodEntry m x := by
    intro x hx
    rcases List.mem_append.mp hx with h | h
    · exact hpre x h
    · rw [List.mem_singleton.mp h]
      exact he
  constructor
  · have h := locateLoop_append m post (pre ++ [e]) 0 ⟨0, 0, [Msg.Banner]⟩ hall
    rw [List.append_assoc, List.singleton_append, List.length_append, List.length_singleton,
      Nat.zero_add] at h
    exact h
  · exact locateLoop_noGood m (pre ++ [e]) 0 _ hall rfl

/-- C16. Candidate fall-through: an entry with an ACPI identifier whose root pointer fails
validation, or whose root pointer is valid but whose extended table list fails its signature or
checksum check, does not end the first loop, which goes on with the next configuration-table
entry; when the entry scan runs, some entry has both a valid root pointer and a valid extended
table list, and the scan works on the list of the first such entry; and when some entry has
both, the entry scan runs on the list of the first such entry (its two pointers being non-null,
which is what the guard of line 112 tests). -/
theorem C16_candidate_fall_through (cfg : List EFI_CONFIGURATION_TABLE) (m : Mem) :
    (∀ pre e post, cfg = pre ++ e :: post → (∀ x, x ∈ pre → ¬ goodEntry m x) → isAcpiGuid e →
        (¬ rsdpValid m e.VendorTable ∨ ¬ xsdtValid m (xsdtOf m e.VendorTable)) →
        locateTables cfg m =
          locateLoop m post (pre.length + 1)
            (locateLoop m (pre ++ [e]) 0 ⟨0, 0, [Msg.Banner]⟩)) ∧
    (scanRuns cfg m →
      ∃ pre e post, cfg = pre ++ e :: post ∧ (∀ x, x ∈ pre → ¬ goodEntry m x) ∧ goodEntry m e ∧
        (locateTables cfg m).XsdtHeader = xsdtOf m e.VendorTable ∧
        (scanStage m (locateTables cfg m)).Fadt = (scanEntries m (xsdtOf m e.VendorTable)).Fadt) ∧
    (∀ pre e post, cfg = pre ++ e :: post → (∀ x, x ∈ pre → ¬ goodEntry m x) → goodEntry m e →
        e.VendorTable ≠ 0 → xsdtOf m e.VendorTable ≠ 0 →
        scanRuns cfg m ∧ (locateTables cfg m).XsdtHeader = xsdtOf m e.VendorTable ∧
        (scanStage m (locateTables cfg m)).Fadt = (scanEntries m (xsdtOf m e.VendorTable)).Fadt) := by
  refine ⟨?_, ?_, ?_⟩
  · intro pre e post hcfg hpre _ hbad
    subst hcfg
    exact (locateTables_fallThrough m pre post e hpre
      (fun c => hbad.elim (fun h => h c.2.1) (fun h => h c.2.2))).1
  · intro hr
    have hr' : (locateTables cfg m).Rsdp ≠ 0 ∧ (locateTables cfg m).XsdtHeader ≠ 0 := hr
    by_cases hex : ∃ e, e ∈ cfg ∧ goodEntry m e
    · obtain ⟨pre, e, post, hcfg, hpre, he⟩ := exists_first_good m cfg hex
      subst hcfg
      have key := locateTables_firstGood m pre post e hpre he
      refine ⟨pre, e, post, rfl, hpre, he, by rw [key], ?_⟩
      rw [scanStage_Fadt, if_pos hr', key]
    · exfalso
      exact hr'.2 (locateLoop_noGood m cfg 0 _ (fun e he c => hex ⟨e, he, c⟩) rfl)
  · intro pre e post hcfg hpre he h1 h2
    subst hcfg
    have key := locateTables_firstGood m pre post e hpre he
    have hr' : (locateTables (pre ++ e :: post) m).Rsdp ≠ 0 ∧
        (locateTables (pre ++ e :: post) m).XsdtHeader ≠ 0 := by
      rw [key]
      exact ⟨h1, h2⟩
    refine ⟨hr', by rw [key], ?_⟩
    rw [scanStage_Fadt, if_pos hr', key]

/-- C16 at the image `imgTwoRoots`: the first entry has a valid root pointer whose extended
table list is not valid, the loop goes on with the second entry, and the entry scan runs on the
list at 128 that the second entry leads to. -/
theorem C16_candidate_fall_through_witness :
    rsdpValid imgTwoRoots 512 ∧ ¬ xsdtValid imgTwoRoots (xsdtOf imgTwoRoots 512) ∧
      locateTables cfgTwoRoots imgTwoRoots =
        locateLoop imgTwoRoots [⟨AcpiTableGuid, 64⟩] 1
          (locateLoop imgTwoRoots [⟨Acpi20TableGuid, 512⟩] 0 ⟨0, 0, [Msg.Banner]⟩) ∧
      scanRuns cfgTwoRoots imgTwoRoots ∧
      (locateTables cfgTwoRoots imgTwoRoots).XsdtHeader = 128 ∧
      (scanStage imgTwoRoots (locateTables cfgTwoRoots imgTwoRoots)).Fadt =
        (scanEntries imgTwoRoots (xsdtOf imgTwoRoots 64)).Fadt :=
  have h := C16_candidate_fall_through cfgTwoRoots imgTwoRoots
  have h3 := h.2.2 [⟨Acpi20TableGuid, 512⟩] ⟨AcpiTableGuid, 64⟩ [] rfl (by decide) (by decide)
    (by decide) (by decide)
  ⟨by decide, by decide,
    h.1 [] ⟨Acpi20TableGuid, 512⟩ [⟨AcpiTableGuid, 64⟩] rfl (by decide) (by decide)
      (Or.inr (by decide)),
    h3.1, by decide, h3.2.2⟩

/-! ## Two runs in a row -/

/-- C19, as stated, fails: in `imgNested` the root pointer at 64, the extended table list at 128
and the three tables it points to, at 192, 256 and 384, occupy pairwise disjoint byte ranges,
and the first run selects the table at 384; the second run, on the memory the first run leaves,
selects the table at 768, does not take the already-enabled branch, and changes a byte. -/
theorem C19_counterexample :
    tablesPairwiseDisjoint cfgNested imgNested ∧
      (efi_main cfgNested imgNested).Rsdp = 64 ∧
      (efi_main cfgNested imgNested).XsdtHeader = 128 ∧
      (efi_main cfgNested imgNested).Fadt = 384 ∧
      (efi_main cfgNested (efi_main cfgNested imgNested).mem).Rsdp = 464 ∧
      (efi_main cfgNested (efi_main cfgNested imgNested).mem).XsdtHeader = 640 ∧
      (efi_main cfgNested (efi_main cfgNested imgNested).mem).Fadt = 768 ∧
      Msg.AlreadyEnabled ∉ (efi_main cfgNested (efi_main cfgNested imgNested).mem).log ∧
      Msg.PatchCompleted ∈ (efi_main cfgNested (efi_main cfgNested imgNested).mem).log ∧
      rd8 (efi_main cfgNested (efi_main cfgNested imgNested).mem).mem (768 + 114) ≠
        rd8 (efi_main cfgNested imgNested).mem (768 + 114) := by
  decide

/-! ## Reads that two memories agree on -/

theorem rd32_congr (m m' : Mem) (p : Nat) (h : ∀ k, k < 4 → rd8 m' (p + k) = rd8 m (p + k)) :
    rd32 m' p = rd32 m p := by
  have h0 := h 0 (by omega)
  rw [Nat.add_zero] at h0
  unfold rd32
  rw [h0, h 1 (by omega), h 2 (by omega), h 3 (by omega)]

theorem rd64_congr (m m' : Mem) (p : Nat) (h : ∀ k, k < 8 → rd8 m' (p + k) = rd8 m (p + k)) :
    rd64 m' p = rd64 m p := by
  unfold rd64
  rw [rd32_congr m m' p (fun k hk => h k (by omega)),
    rd32_congr m m' (p + 4) (fun k hk => by rw [Nat.add_assoc]; exact h (4 + k) (by omega))]

/-- The checks on a root pointer read nothing outside `rsdpRead`. -/
theorem rsdpValid_congr (m m' : Mem) (p : Nat)
    (h : ∀ a, rsdpRead m p a → rd8 m' a = rd8 m a) :
    (rsdpValid m' p ↔ rsdpValid m p) ∧
      (rsdpValid m p →
        rd8 m' (p + RSDP_Revision) = rd8 m (p + RSDP_Revision) ∧ xsdtOf m' p = xsdtOf m p) := by
  unfold rsdpRead RSDP_Length RSDP_Revision RSDP_XsdtAddress at h
  have h64 : rd64 m' p = rd64 m p :=
    rd64_congr m m' p (fun k hk => h (p + k) (Or.inl ⟨by omega, by omega⟩))
  have hrev : rd64 m p = EFI_ACPI_2_0_ROOT_SYSTEM_DESCRIPTION_POINTER_SIGNATURE →
      rd8 m' (p + 15) = rd8 m (p + 15) :=
    fun a1 => h (p + 15) (Or.inr ⟨a1, Or.inl rfl⟩)
  have h20 : rd64 m p = EFI_ACPI_2_0_ROOT_SYSTEM_DESCRIPTION_POINTER_SIGNATURE →
      EFI_ACPI_2_0_ROOT_SYSTEM_DESCRIPTION_POINTER_REVISION ≤ rd8 m (p + 15) →
      SumBytes m' p 20 = SumBytes m p 20 ∧ rd32 m' (p + 20) = rd32 m (p + 20) :=
    fun a1 a2 =>
      ⟨SumBytes_congr m' m p 20 (fun i hi =>
          h (p + i) (Or.inr ⟨a1, Or.inr ⟨a2, Or.inl ⟨by omega, by omega⟩⟩⟩)),
        rd32_congr m m' (p + 20) (fun k hk =>
          h (p + 20 + k) (Or.inr ⟨a1, Or.inr ⟨a2, Or.inl ⟨by omega, by omega⟩⟩⟩))⟩
  have hl : rd64 m p = EFI_ACPI_2_0_ROOT_SYSTEM_DESCRIPTION_POINTER_SIGNATURE →
      EFI_ACPI_2_0_ROOT_SYSTEM_DESCRIPTION_POINTER_REVISION ≤ rd8 m (p + 15) →
      SumBytes m p 20 = 0 →
      SumBytes m' p (rd32 m (p + 20)) = SumBytes m p (rd32 m (p + 20)) :=
    fun a1 a2 a3 => SumBytes_congr m' m p _ (fun i hi =>
      h (p + i) (Or.inr ⟨a1, Or.inr ⟨a2, Or.inr ⟨a3, Or.inl ⟨by omega, by omega⟩⟩⟩⟩))
  have hx : rd64 m p = EFI_ACPI_2_0_ROOT_SYSTEM_DESCRIPTION_POINTER_SIGNATURE →
      EFI_ACPI_2_0_ROOT_SYSTEM_DESCRIPTION_POINTER_REVISION ≤ rd8 m (p + 15) →
      SumBytes m p 20 = 0 → SumBytes m p (rd32 m (p + 20)) = 0 →
      rd64 m' (p + 24) = rd64 m (p + 24) :=
    fun a1 a2 a3 a4 => rd64_congr m m' (p + 24) (fun k hk =>
      h (p + 24 + k)
        (Or.inr ⟨a1, Or.inr ⟨a2, Or.inr ⟨a3, Or.inr ⟨a4, by omega, by omega⟩⟩⟩⟩))
  unfold rsdpValid xsdtOf RSDP_Length RSDP_Revision RSDP_XsdtAddress
  refine ⟨⟨?_, ?_⟩, ?_⟩
  · rintro ⟨a1, a2, a3, a4⟩
    rw [h64] at a1
    rw [hrev a1] at a2
    rw [(h20 a1 a2).1] at a3
    rw [(h20 a1 a2).2, hl a1 a2 a3] at a4
    exact ⟨a1, a2, a3, a4⟩
  · rintro ⟨a1, a2, a3, a4⟩
    refine ⟨by rw [h64]; exact a1, by rw [hrev a1]; exact a2,
      by rw [(h20 a1 a2).1]; exact a3, ?_⟩
    rw [(h20 a1 a2).2, hl a1 a2 a3]
    exact a4
  · rintro ⟨a1, a2, a3, a4⟩
    exact ⟨hrev a1, by rw [hx a1 a2 a3 a4]⟩

/-- The checks on an extended table list read nothing outside `xsdtRead`. -/
theorem xsdtValid_congr (m m' : Mem) (x : Nat)
    (h : ∀ a, xsdtRead m x a → rd8 m' a = rd8 m a) :
    xsdtValid m' x ↔ xsdtValid m x := by
  unfold xsdtRead HDR_Length HDR_Signature at h
  have hsig : rd32 m' (x + 0) = rd32 m (x + 0) :=
    rd32_congr m m' (x + 0) (fun k hk => h (x + 0 + k) (Or.inl ⟨by omega, by omega⟩))
  have hlen : rd32 m (x + 0) = EFI_ACPI_2_0_EXTENDED_SYSTEM_DESCRIPTION_TABLE_SIGNATURE →
      rd32 m' (x + 4) = rd32 m (x + 4) :=
    fun a1 => rd32_congr m m' (x + 4) (fun k hk =>
      h (x + 4 + k) (Or.inr ⟨a1, Or.inl ⟨by omega, by omega⟩⟩))
  have hsl : rd32 m (x + 0) = EFI_ACPI_2_0_EXTENDED_SYSTEM_DESCRIPTION_TABLE_SIGNATURE →
      SumBytes m' x (rd32 m (x + 4)) = SumBytes m x (rd32 m (x + 4)) :=
    fun a1 => SumBytes_congr m' m x _ (fun i hi =>
      h (x + i) (Or.inr ⟨a1, Or.inr ⟨by omega, by omega⟩⟩))
  unfold xsdtValid HDR_Length HDR_Signature
  constructor
  · rintro ⟨a1, a2⟩
    rw [hsig] at a1
    rw [hlen a1, hsl a1] at a2
    exact ⟨a1, a2⟩
  · rintro ⟨a1, a2⟩
    exact ⟨by rw [hsig]; exact a1, by rw [hlen a1, hsl a1]; exact a2⟩

theorem examined_head (m : Mem) (e : EFI_CONFIGURATION_TABLE)
    (es : List EFI_CONFIGURATION_TABLE) : e ∈ examined m (e :: es) := by
  show e ∈ (if goodEntry m e then [e] else e :: examined m es)
  split <;> simp

theorem examined_tail (m : Mem) (e x : EFI_CONFIGURATION_TABLE)
    (es : List EFI_CONFIGURATION_TABLE) (he : ¬ goodEntry m e) (hx : x ∈ examined m es) :
    x ∈ examined m (e :: es) := by
  show x ∈ (if goodEntry m e then [e] else e :: examined m es)
  rw [if_neg he]
  exact List.mem_cons_of_mem e hx

theorem visited_head (m : Mem) (X n j : Nat) : j ∈ visited m X (n + 1) j := by
  show j ∈ (if isFadt5 m (xsdtEntry m X j) then [j] else j :: visited m X n (j + 1))
  split <;> simp

theorem visited_tail (m : Mem) (X n j i : Nat) (hq : ¬ isFadt5 m (xsdtEntry m X j))
    (hi : i ∈ visited m X n (j + 1)) : i ∈ visited m X (n + 1) j := by
  show i ∈ (if isFadt5 m (xsdtEntry m X j) then [j] else j :: visited m X n (j + 1))
  rw [if_neg hq]
  exact List.mem_cons_of_mem j hi

/-- The first loop gives the same result on two memories that agree on the bytes it reads. -/
theorem locateLoop_congr (m m' : Mem) :
    ∀ (cfg : List EFI_CONFIGURATION_TABLE) (i : Nat) (s : LocState),
      (∀ a, locateReads m cfg a → rd8 m' a = rd8 m a) →
      locateLoop m' cfg i s = locateLoop m cfg i s := by
  intro cfg
  induction cfg with
  | nil => intro i s _; rfl
  | cons e es ih =>
    intro i s h
    unfold locateReads at h
    have hes : ¬ goodEntry m e → ∀ a, locateReads m es a → rd8 m' a = rd8 m a := by
      unfold locateReads
      rintro hb a ⟨x, hx, hr⟩
      exact h a ⟨x, examined_tail m e x es hb hx, hr⟩
    by_cases hg : isAcpiGuid e
    · have hR : ∀ a, rsdpRead m e.VendorTable a → rd8 m' a = rd8 m a :=
        fun a ha => h a ⟨e, examined_head m e es, hg, Or.inl ha⟩
      obtain ⟨hv, hval⟩ := rsdpValid_congr m m' e.VendorTable hR
      by_cases hr : rsdpValid m e.VendorTable
      · obtain ⟨hrev, hxo⟩ := hval hr
        have hxv := xsdtValid_congr m m' (xsdtOf m e.VendorTable)
          (fun a ha => h a ⟨e, examined_head m e es, hg, Or.inr ⟨hr, ha⟩⟩)
        by_cases hx : xsdtValid m (xsdtOf m e.VendorTable)
        · rw [locateLoop_found m' e es i s ⟨hg, hv.mpr hr, by rw [hxo]; exact hxv.mpr hx⟩,
            locateLoop_found m e es i s ⟨hg, hr, hx⟩, hrev, hxo]
        · rw [locateLoop_badXsdt m' e es i s hg (hv.mpr hr)
              (by rw [hxo]; exact fun c => hx (hxv.mp c)),
            locateLoop_badXsdt m e es i s hg hr hx, hrev]
          exact ih _ _ (hes (fun c => hx c.2.2))
      · rw [locateLoop_badRsdp m' e es i s hg (fun c => hr (hv.mp c)),
          locateLoop_badRsdp m e es i s hg hr]
        exact ih _ _ (hes (fun c => hr c.2.1))
    · rw [locateLoop_notAcpi m' e es i s hg, locateLoop_notAcpi m e es i s hg]
      exact ih _ _ (hes (fun c => hg c.1))

/-- The second loop gives the same result on two memories that agree on the visited pointers
and on what the loop reads behind each of them. -/
theorem scanLoop_congr (m m' : Mem) (X : Nat) :
    ∀ (n j : Nat) (log : List Msg),
      (∀ i, i ∈ visited m X n j →
        xsdtEntry m' X i = xsdtEntry m X i ∧
          ∀ a, entryRead m (xsdtEntry m X i) a → rd8 m' a = rd8 m a) →
      scanLoop m' (X + sizeof_EFI_ACPI_DESCRIPTION_HEADER) n j log =
        scanLoop m (X + sizeof_EFI_ACPI_DESCRIPTION_HEADER) n j log := by
  intro n
  induction n with
  | zero => intro j log _; rfl
  | succ c ih =>
    intro j log h
    obtain ⟨h1, hread⟩ := h j (visited_head m X c j)
    unfold entryRead at hread
    have hsig : rd32 m' (xsdtEntry m X j + HDR_Signature)
        = rd32 m (xsdtEntry m X j + HDR_Signature) :=
      rd32_congr m m' _
        (fun k hk => hread _ (Or.inl ⟨by omega, by unfold HDR_Signature; omega⟩))
    have hrest : ¬ isFadt5 m (xsdtEntry m X j) → ∀ i, i ∈ visited m X c (j + 1) →
        xsdtEntry m' X i = xsdtEntry m X i ∧
          ∀ a, entryRead m (xsdtEntry m X i) a → rd8 m' a = rd8 m a :=
      fun hq i hi => h i (visited_tail m X c j i hq hi)
    rw [scanLoop_succ, scanLoop_succ, h1, hsig]
    by_cases hs : rd32 m (xsdtEntry m X j + HDR_Signature)
        = EFI_ACPI_2_0_FIXED_ACPI_DESCRIPTION_TABLE_SIGNATURE
    · have hrev : rd8 m' (xsdtEntry m X j + HDR_Revision)
          = rd8 m (xsdtEntry m X j + HDR_Revision) := hread _ (Or.inr ⟨hs, rfl⟩)
      have hc : ¬ ((rd32 m (xsdtEntry m X j + HDR_Signature)
          != EFI_ACPI_2_0_FIXED_ACPI_DESCRIPTION_TABLE_SIGNATURE) = true) := by simp [hs]
      rw [hrev, if_neg hc, if_neg hc]
      by_cases hr : rd8 m (xsdtEntry m X j + HDR_Revision)
          < EFI_ACPI_5_0_FIXED_ACPI_DESCRIPTION_TABLE_REVISION
      · rw [if_pos hr, if_pos hr]
        exact ih _ _ (hrest (fun q => Nat.not_le.mpr hr q.2))
      · rw [if_neg hr, if_neg hr]
    · have hc : (rd32 m (xsdtEntry m X j + HDR_Signature)
          != EFI_ACPI_2_0_FIXED_ACPI_DESCRIPTION_TABLE_SIGNATURE) = true := by simp [hs]
      rw [if_pos hc, if_pos hc]
      exact ih _ _ (hrest (fun q => hs q.1))

/-- The entry scan gives the same result on two memories that agree on the bytes it reads. -/
theorem scanEntries_congr (m m' : Mem) (X : Nat)
    (h : ∀ a, scanReads m X a → rd8 m' a = rd8 m a) :
    scanEntries m' X = scanEntries m X := by
  unfold scanReads at h
  have hlen : rd32 m' (X + HDR_Length) = rd32 m (X + HDR_Length) :=
    rd32_congr m m' _ (fun k hk => h _ (Or.inl ⟨by omega, by omega⟩))
  have hn : EntryArraySize m' X = EntryArraySize m X := by
    unfold EntryArraySize
    rw [hlen]
  show scanLoop m' (X + sizeof_EFI_ACPI_DESCRIPTION_HEADER) (EntryArraySize m' X) 0
      [Msg.XsdtCount (EntryArraySize m' X)] =
    scanLoop m (X + sizeof_EFI_ACPI_DESCRIPTION_HEADER) (EntryArraySize m X) 0
      [Msg.XsdtCount (EntryArraySize m X)]
  rw [hn]
  apply scanLoop_congr
  intro i hi
  constructor
  · unfold xsdtEntry
    rw [rd64_congr m m' _ (fun k hk => h _ (Or.inr ⟨i, hi, Or.inl ⟨by omega, by omega⟩⟩))]
  · intro a ha
    exact h a (Or.inr ⟨i, hi, Or.inr ha⟩)

/-- A run in which the patch step does not take its `else` branch leaves memory as it was. -/
theorem efi_main_mem_same (cfg : List EFI_CONFIGURATION_TABLE) (m : Mem)
    (h : (efi_main cfg m).Fadt ≠ 0 → s0LowPowerIdle m (efi_main cfg m).Fadt) :
    (efi_main cfg m).mem = m := by
  rw [efi_main_mem]
  by_cases hF : (efi_main cfg m).Fadt ≠ 0
  · rw [if_pos hF, patchFadt_set m _ (h hF)]
  · rw [if_neg hF]

/-- A run changes no byte outside the five addresses of `fadtWrittenList`. -/
theorem efi_main_unchanged (cfg : List EFI_CONFIGURATION_TABLE) (m : Mem) (a : Nat)
    (h : a ∉ fadtWrittenList (efi_main cfg m).Fadt) : rd8 (efi_main cfg m).mem a = rd8 m a := by
  have hw : ¬ fadtWritten (efi_main cfg m).Fadt a := by
    unfold fadtWritten
    unfold fadtWrittenList at h
    simp only [List.mem_cons, List.mem_singleton, List.not_mem_nil, or_false] at h
    omega
  unfold rd8
  rw [efi_main_mem]
  split
  · rw [patchFadt_frame m _ a hw]
  · rfl

/-- After a run that selected a table, bit 21 of that table's flags field is set. -/
theorem efi_main_enabled (cfg : List EFI_CONFIGURATION_TABLE) (m : Mem)
    (h : (efi_main cfg m).Fadt ≠ 0) :
    s0LowPowerIdle (efi_main cfg m).mem (efi_main cfg m).Fadt := by
  rw [efi_main_mem, if_pos h]
  exact patchFadt_enabled m _

/-- C19, amended. Two runs in a row. First, whenever the second run, on the memory the first
run leaves, selects the same table as the first, it finds bit 21 set and takes the
already-enabled branch if a table was selected, and it changes no byte. Second, when no byte
whose value the first run changes is read by the first run's configuration-table scan (which
reads, of each entry it examines that has an ACPI identifier, the root pointer as far as its
checks go and, behind a valid root pointer, the extended table list as far as its checks go) or
by its entry scan (which reads the length field, the slots of the pointer array it visits, and
signature and, on a match, revision of the tables those point to), the second run locates the
same root pointer and the same list and selects the same table, so that the first part
applies. -/
theorem C19_pipeline_idempotent (cfg : List EFI_CONFIGURATION_TABLE) (m : Mem) :
    ((efi_main cfg (efi_main cfg m).mem).Fadt = (efi_main cfg m).Fadt →
      ((efi_main cfg m).Fadt ≠ 0 →
        s0LowPowerIdle (efi_main cfg m).mem (efi_main cfg m).Fadt ∧
          Msg.AlreadyEnabled ∈ (efi_main cfg (efi_main cfg m).mem).log) ∧
      (efi_main cfg (efi_main cfg m).mem).mem = (efi_main cfg m).mem) ∧
    (readsClearOfPatch cfg m →
      (efi_main cfg (efi_main cfg m).mem).Rsdp = (efi_main cfg m).Rsdp ∧
      (efi_main cfg (efi_main cfg m).mem).XsdtHeader = (efi_main cfg m).XsdtHeader ∧
      (efi_main cfg (efi_main cfg m).mem).Fadt = (efi_main cfg m).Fadt ∧
      ((efi_main cfg m).Fadt ≠ 0 →
        s0LowPowerIdle (efi_main cfg m).mem (efi_main cfg m).Fadt ∧
          Msg.AlreadyEnabled ∈ (efi_main cfg (efi_main cfg m).mem).log) ∧
      (efi_main cfg (efi_main cfg m).mem).mem = (efi_main cfg m).mem) := by
  have partA : (efi_main cfg (efi_main cfg m).mem).Fadt = (efi_main cfg m).Fadt →
      ((efi_main cfg m).Fadt ≠ 0 →
        s0LowPowerIdle (efi_main cfg m).mem (efi_main cfg m).Fadt ∧
          Msg.AlreadyEnabled ∈ (efi_main cfg (efi_main cfg m).mem).log) ∧
      (efi_main cfg (efi_main cfg m).mem).mem = (efi_main cfg m).mem := by
    intro hF
    have hen : (efi_main cfg (efi_main cfg m).mem).Fadt ≠ 0 →
        s0LowPowerIdle (efi_main cfg m).mem (efi_main cfg (efi_main cfg m).mem).Fadt := by
      intro h0
      rw [hF] at h0 ⊢
      exact efi_main_enabled cfg m h0
    refine ⟨?_, efi_main_mem_same cfg _ hen⟩
    intro h0
    have h1 : (efi_main cfg (efi_main cfg m).mem).Fadt ≠ 0 := by
      rw [hF]
      exact h0
    refine ⟨efi_main_enabled cfg m h0, ?_⟩
    rw [(efi_main_patch cfg _ h1).2, patchFadt_set _ _ (hen h1)]
    simp
  refine ⟨partA, ?_⟩
  intro h
  have hin : ∀ a, rd8 (efi_main cfg m).mem a ≠ rd8 m a →
      a ∈ fadtWrittenList (efi_main cfg m).Fadt :=
    fun a hne => Classical.byContradiction (fun c => hne (efi_main_unchanged cfg m a c))
  have hloc : locateTables cfg (efi_main cfg m).mem = locateTables cfg m := by
    apply locateLoop_congr
    intro a ha
    by_contra hne
    exact (h a (hin a hne) hne).1 ha
  have hscan : (locateTables cfg m).Rsdp ≠ 0 ∧ (locateTables cfg m).XsdtHeader ≠ 0 →
      scanEntries (efi_main cfg m).mem (locateTables cfg m).XsdtHeader =
        scanEntries m (locateTables cfg m).XsdtHeader := by
    intro hg
    apply scanEntries_congr
    intro a ha
    by_contra hne
    exact (h a (hin a hne) hne).2 hg ha
  have hF : (efi_main cfg (efi_main cfg m).mem).Fadt = (efi_main cfg m).Fadt := by
    rw [efi_main_Fadt, efi_main_Fadt, hloc, scanStage_Fadt, scanStage_Fadt]
    by_cases hg : (locateTables cfg m).Rsdp ≠ 0 ∧ (locateTables cfg m).XsdtHeader ≠ 0
    · rw [if_pos hg, if_pos hg, hscan hg]
    · rw [if_neg hg, if_neg hg]
  refine ⟨?_, ?_, hF, partA hF⟩
  · show (locateTables cfg (efi_main cfg m).mem).Rsdp = (locateTables cfg m).Rsdp
    rw [hloc]
  · show (locateTables cfg (efi_main cfg m).mem).XsdtHeader = (locateTables cfg m).XsdtHeader
    rw [hloc]

/-- C19, amended, at three images. In `imgPatch` the first run patches the table at 384 and the
two bytes it changes, at 393 and 498, are read by neither loop. In `imgNested` with the
configuration table `cfgSwapped` the first loop stops at its first entry, never reads the
candidate at 464 that contains byte 498, and the second run repeats the first. In
`imgNestedOff` the candidate at 464 is examined and byte 498 is read, yet the candidate fails
before and after the first run, the second run selects the same table, and the first part of
the theorem applies. -/
theorem C19_pipeline_idempotent_witness :
    (readsClearOfPatch cfgAcpi imgPatch ∧ (efi_main cfgAcpi imgPatch).Fadt = 384 ∧
      rd8 (efi_main cfgAcpi imgPatch).mem 498 ≠ rd8 imgPatch 498 ∧
      (efi_main cfgAcpi (efi_main cfgAcpi imgPatch).mem).Fadt = (efi_main cfgAcpi imgPatch).Fadt ∧
      Msg.AlreadyEnabled ∈ (efi_main cfgAcpi (efi_main cfgAcpi imgPatch).mem).log ∧
      (efi_main cfgAcpi (efi_main cfgAcpi imgPatch).mem).mem = (efi_main cfgAcpi imgPatch).mem) ∧
    (readsClearOfPatch cfgSwapped imgNested ∧ (efi_main cfgSwapped imgNested).Fadt = 384 ∧
      (efi_main cfgSwapped (efi_main cfgSwapped imgNested).mem).Fadt = 384 ∧
      (efi_main cfgSwapped (efi_main cfgSwapped imgNested).mem).mem =
        (efi_main cfgSwapped imgNested).mem) ∧
    (¬ readsClearOfPatch cfgNested imgNestedOff ∧ (efi_main cfgNested imgNestedOff).Fadt = 384 ∧
      Msg.AlreadyEnabled ∈ (efi_main cfgNested (efi_main cfgNested imgNestedOff).mem).log ∧
      (efi_main cfgNested (efi_main cfgNested imgNestedOff).mem).mem =
        (efi_main cfgNested imgNestedOff).mem) :=
  have h := (C19_pipeline_idempotent cfgAcpi imgPatch).2 (by decide)
  have h' := (C19_pipeline_idempotent cfgSwapped imgNested).2 (by decide)
  have h2 := (C19_pipeline_idempotent cfgNested imgNestedOff).1 (by decide)
  ⟨⟨by decide, by decide, by decide, h.2.2.1, (h.2.2.2.1 (by decide)).2, h.2.2.2.2⟩,
    ⟨by decide, by decide, by decide, h'.2.2.2.2⟩,
    ⟨by decide, by decide, (h2.1 (by decide)).2, h2.2⟩⟩

end AcpiPatcher
